import Mathlib

/-!
# OpenModScan output widget: value formatting, address labels and the register table

A shallow embedding of `src/omodscan/controls/outputwidget.cpp`, and of the two totals of
`src/omodscan/controls/mainstatusbar.cpp`.

* Qt strings are `String`; the Qt library calls the source makes
  (`QString::arg` with a field width, base and fill character, `QString::toUpper`,
  `QModbusDataUnit::value` / `isValid`) are given small executable models.
* `quint16` values are `Nat` (reduced modulo `2 ^ 16` where the source narrows),
  `qint16` / `int` values are `Int`.
* The model class `OutputListModel` reads its settings from its parent widget, so the
  operations of both classes act on one state record, `OutputWidget`.
-/

namespace OpenModScan

/-! ## Qt library models -/

/-- Digit character used by Qt's integer-to-text conversion: `0`..`9`, then lowercase
`a`..`z`. -/
def qDigit (d : Nat) : Char :=
  if d < 10 then Char.ofNat (48 + d) else Char.ofNat (87 + d)

/-- Positional digits of `n` in base `base`, most significant first, without padding.
The first argument bounds the number of digits produced. -/
def numberCore (base : Nat) : Nat → Nat → List Char
  | 0, _ => []
  | fuel + 1, n =>
    if n < base then [qDigit n]
    else numberCore base fuel (n / base) ++ [qDigit (n % base)]

/-- Model of `QString::number(n, base)` for a non-negative `n`. -/
def qNumber (base n : Nat) : List Char :=
  numberCore base (n + 1) n

/-- Model of `QString::number(v)` in base 10 for a signed value. -/
def qNumberInt (v : Int) : List Char :=
  if v < 0 then '-' :: qNumber 10 v.natAbs else qNumber 10 v.toNat

/-- Model of the right-aligned padding done by `QString::arg(value, fieldWidth, base, fillChar)`
for a positive field width: the text is extended on the left with `fill` up to `width`. -/
def qPad (width : Nat) (fill : Char) (s : List Char) : List Char :=
  List.replicate (width - s.length) fill ++ s

/-- Model of `QString::toUpper` (the strings of this file are ASCII). -/
def qToUpper (s : String) : String :=
  String.mk (s.data.map Char.toUpper)

/-! ## Enumerations and helpers declared outside the translated file -/

/-- The enumeration `QModbusDataUnit::RegisterType` of the Qt serial bus library. -/
inductive RegisterType where
  | Invalid
  | DiscreteInputs
  | Coils
  | InputRegisters
  | HoldingRegisters
  deriving DecidableEq, Repr

/-- Modelled from the spec: the enumeration `ByteOrder`, whose declaration is not part of the
translated sources. The specification names four conventions, two of which swap the bytes of a
16-bit word. -/
inductive ByteOrder where
  | LittleEndian
  | BigEndian
  | LittleEndianByteSwapped
  | BigEndianByteSwapped
  deriving DecidableEq, Repr

/-- Modelled from the spec: whether a byte order convention asks for the byte swap of a
16-bit word. -/
def ByteOrder.swapsBytes : ByteOrder → Bool
  | .LittleEndian => false
  | .BigEndian => false
  | .LittleEndianByteSwapped => true
  | .BigEndianByteSwapped => true

/-- Modelled from the spec: the helper `toByteOrderValue(value, order)`, whose definition is
not part of the translated sources (`reorder16` in the specification): the two bytes of the
16-bit value are exchanged when the order specifies a byte swap, and the value is returned
as it is otherwise. -/
def toByteOrderValue (value : Nat) (order : ByteOrder) : Nat :=
  if order.swapsBytes then (value % 256) * 256 + (value / 256) % 256 else value % 65536

/-- Conversion of a 16-bit pattern to `qint16` (two's complement). -/
def toInt16 (v : Nat) : Int :=
  if v % 65536 < 32768 then ((v % 65536 : Nat) : Int) else ((v % 65536 : Nat) : Int) - 65536

/-- Conversion of a `qint16` to the `quint16` with the same bits. -/
def toUInt16 (v : Int) : Nat :=
  (v % 65536).toNat

/-- The enumeration `DataDisplayMode`. -/
inductive DataDisplayMode where
  | Binary
  | Decimal
  | Integer
  | Hex
  | FloatingPt
  | SwappedFP
  | DblFloat
  | SwappedDbl
  deriving DecidableEq, Repr

/-- The values a `QVariant` holds in this file: nothing, an integer (both `quint16` and
`qint16` are promoted to `int`), a `float` or a `double`; floating point numbers are kept as
whatever `makeFloat` / `makeDouble` return. -/
inductive QVariant where
  | invalid
  | int (v : Int)
  | float (v : Nat)
  | double (v : Nat)
  deriving DecidableEq, Repr

/-- The floating point helpers used by the formatters and not part of the translated sources:
`makeFloat` and `makeDouble` of `floatutils.h` and the locale rendering
`QLocale().toString`. They are parameters of the embedding. -/
structure FloatCodec where
  makeFloat : Nat → Nat → ByteOrder → Nat
  makeDouble : Nat → Nat → Nat → Nat → ByteOrder → Nat
  floatToString : Nat → String
  doubleToString : Nat → String

/-! ## The value formatters -/

/-- The function `formatBinaryValue`: returns the display string and the value stored in
`outValue`. -/
def formatBinaryValue (pointType : RegisterType) (value : Nat) (order : ByteOrder) :
    String × QVariant :=
  let value := toByteOrderValue value order
  let result : String :=
    match pointType with
    | .Coils | .DiscreteInputs => String.mk (['<'] ++ qNumber 10 value ++ ['>'])
    | .HoldingRegisters | .InputRegisters =>
      String.mk (['<'] ++ qPad 16 '0' (qNumber 2 value) ++ ['>'])
    | _ => ""
  (result, QVariant.int value)

/-- The function `formatDecimalValue`. -/
def formatDecimalValue (pointType : RegisterType) (value : Nat) (order : ByteOrder) :
    String × QVariant :=
  let value := toByteOrderValue value order
  let result : String :=
    match pointType with
    | .Coils | .DiscreteInputs => String.mk (['<'] ++ qPad 1 '0' (qNumber 10 value) ++ ['>'])
    | .HoldingRegisters | .InputRegisters =>
      String.mk (['<'] ++ qPad 5 '0' (qNumber 10 value) ++ ['>'])
    | _ => ""
  (result, QVariant.int value)

/-- The function `formatIntegerValue`; its `value` parameter is a `qint16`. -/
def formatIntegerValue (pointType : RegisterType) (value : Int) (order : ByteOrder) :
    String × QVariant :=
  let value := toInt16 (toByteOrderValue (toUInt16 value) order)
  let result : String :=
    match pointType with
    | .Coils | .DiscreteInputs => String.mk (['<'] ++ qNumberInt value ++ ['>'])
    | .HoldingRegisters | .InputRegisters =>
      String.mk (['<'] ++ qPad 5 ' ' (qNumberInt value) ++ ['>'])
    | _ => ""
  (result, QVariant.int value)

/-- The function `formatHexValue`. -/
def formatHexValue (pointType : RegisterType) (value : Nat) (order : ByteOrder) :
    String × QVariant :=
  let value := toByteOrderValue value order
  let result : String :=
    match pointType with
    | .Coils | .DiscreteInputs => String.mk (['<'] ++ qNumber 10 value ++ ['>'])
    | .HoldingRegisters | .InputRegisters =>
      String.mk (['<'] ++ qPad 4 '0' (qNumber 16 value) ++ ['H', '>'])
    | _ => ""
  (qToUpper result, QVariant.int value)

/-- The function `formatFloatValue`. The last argument is the previous content of
`outValue`, which the function leaves untouched on the paths that do not assign it. -/
def formatFloatValue (fc : FloatCodec) (pointType : RegisterType) (value1 value2 : Nat)
    (order : ByteOrder) (flag : Bool) (outValue : QVariant) : String × QVariant :=
  match pointType with
  | .Coils | .DiscreteInputs =>
    (String.mk (['<'] ++ qNumber 10 value1 ++ ['>']), QVariant.int value1)
  | .HoldingRegisters | .InputRegisters =>
    if flag then ("", outValue)
    else
      let value := fc.makeFloat value1 value2 order
      (fc.floatToString value, QVariant.float value)
  | _ => ("", outValue)

/-- The function `formatDoubleValue`. The last argument is the previous content of
`outValue`. -/
def formatDoubleValue (fc : FloatCodec) (pointType : RegisterType)
    (value1 value2 value3 value4 : Nat) (order : ByteOrder) (flag : Bool)
    (outValue : QVariant) : String × QVariant :=
  match pointType with
  | .Coils | .DiscreteInputs =>
    (String.mk (['<'] ++ qNumber 10 value1 ++ ['>']), QVariant.int value1)
  | .HoldingRegisters | .InputRegisters =>
    if flag then ("", outValue)
    else
      let value := fc.makeDouble value1 value2 value3 value4 order
      (fc.doubleToString value, QVariant.double value)
  | _ => ("", outValue)

/-! ## Address labels -/

/-- The kind prefix computed at the start of `formatAddress`. -/
def addressPrefix : RegisterType → List Char
  | .Coils => ['0']
  | .DiscreteInputs => ['1']
  | .HoldingRegisters => ['4']
  | .InputRegisters => ['3']
  | _ => []

/-- The function `formatAddress`. Its callers pass `PointAddress + i` or `PointAddress`,
which are never negative, so the address is a natural number here. -/
def formatAddress (pointType : RegisterType) (address : Nat) (hexFormat : Bool) : String :=
  let pfx := addressPrefix pointType
  if hexFormat then String.mk (qPad 4 '0' (qNumber 16 address) ++ ['H'])
  else String.mk (pfx ++ qPad 4 '0' (qNumber 10 address))

/-! ## The table state -/

/-- The fields of `DisplayDefinition` read by the translated file; address and length are
`quint16`. -/
structure DisplayDefinition where
  PointType : RegisterType
  PointAddress : Nat
  Length : Nat
  deriving DecidableEq, Repr

/-- The structure `ItemData`, one per table row. The field defaults are those of an entry
freshly created by `_mapItems[i]`. -/
structure ItemData where
  Address : Int := 0
  Value : QVariant := QVariant.invalid
  ValueStr : String := ""
  Description : String := ""
  Simulated : Bool := false
  deriving DecidableEq, Repr

/-- Model of the Qt class `QModbusDataUnit`; the defaults are those of the default
constructor. -/
structure QModbusDataUnit where
  type : RegisterType := RegisterType.Invalid
  startAddress : Int := -1
  values : List Nat := []
  deriving DecidableEq, Repr

/-- Model of `QModbusDataUnit::isValid`. -/
def QModbusDataUnit.isValid (d : QModbusDataUnit) : Bool :=
  decide (d.type ≠ RegisterType.Invalid) && decide (d.startAddress ≠ -1)

/-- Model of `QModbusDataUnit::value`: the word at `index`, or zero past the end. -/
def QModbusDataUnit.value (d : QModbusDataUnit) (index : Nat) : Nat :=
  d.values.getD index 0

/-- The members of `OutputListModel`: `_mapItems` (a `QMap<int, ItemData>`, keyed by row
numbers, which are never negative) and `_lastData`. -/
structure OutputListModel where
  mapItems : Nat → Option ItemData
  lastData : QModbusDataUnit

/-- The members of `OutputWidget` that the translated operations read or write, together
with its list model, the capture file and the text of the traffic pane. -/
structure OutputWidget where
  displayDefinition : DisplayDefinition
  displayHexAddresses : Bool
  dataDisplayMode : DataDisplayMode
  byteOrder : ByteOrder
  listModel : OutputListModel
  captureOpen : Bool
  captureText : String
  trafficText : String

/-- The roles accepted by `OutputListModel::setData` with the value passed along. -/
inductive SetDataRole where
  | SimulationRole (value : Bool)
  | DescriptionRole (value : String)
  | Other

/-! ## Operations of `OutputListModel` -/

/-- The method `OutputListModel::rowCount`. -/
def OutputListModel.rowCount (w : OutputWidget) : Nat :=
  w.displayDefinition.Length

/-- The method `OutputListModel::isValid`. -/
def OutputListModel.isValid (w : OutputWidget) : Bool :=
  w.listModel.lastData.isValid

/-- Write access `_mapItems[i]`: the entry at `i`, default-constructed when missing. -/
def mapItemsAt (items : Nat → Option ItemData) (i : Nat) : ItemData :=
  (items i).getD {}

/-- The body of the loop of `OutputListModel::updateData` for row `i`, acting on the entry
`itemData` that `_mapItems[i]` refers to. -/
def updateItem (fc : FloatCodec) (w : OutputWidget) (lastData : QModbusDataUnit) (i : Nat)
    (itemData : ItemData) : ItemData :=
  let mode := w.dataDisplayMode
  let pointType := w.displayDefinition.PointType
  let byteOrder := w.byteOrder
  let rowCount := OutputListModel.rowCount w
  let value := lastData.value i
  let itemData := { itemData with Address := (w.displayDefinition.PointAddress : Int) + i }
  let r : String × QVariant :=
    match mode with
    | .Binary => formatBinaryValue pointType value byteOrder
    | .Decimal => formatDecimalValue pointType value byteOrder
    | .Integer => formatIntegerValue pointType (toInt16 value) byteOrder
    | .Hex => formatHexValue pointType value byteOrder
    | .FloatingPt =>
      formatFloatValue fc pointType value (lastData.value (i + 1)) byteOrder
        (decide (i % 2 ≠ 0) || decide (i + 1 ≥ rowCount)) itemData.Value
    | .SwappedFP =>
      formatFloatValue fc pointType (lastData.value (i + 1)) value byteOrder
        (decide (i % 2 ≠ 0) || decide (i + 1 ≥ rowCount)) itemData.Value
    | .DblFloat =>
      formatDoubleValue fc pointType value (lastData.value (i + 1)) (lastData.value (i + 2))
        (lastData.value (i + 3)) byteOrder
        (decide (i % 4 ≠ 0) || decide (i + 3 ≥ rowCount)) itemData.Value
    | .SwappedDbl =>
      formatDoubleValue fc pointType (lastData.value (i + 3)) (lastData.value (i + 2))
        (lastData.value (i + 1)) value byteOrder
        (decide (i % 4 ≠ 0) || decide (i + 3 ≥ rowCount)) itemData.Value
  { itemData with ValueStr := r.1, Value := r.2 }

/-- One iteration of the loop of `OutputListModel::updateData`: the entry of row `i` is
fetched (and created when missing), recomputed and stored. -/
def updateRow (fc : FloatCodec) (w : OutputWidget) (lastData : QModbusDataUnit)
    (items : Nat → Option ItemData) (i : Nat) : Nat → Option ItemData :=
  Function.update items i (some (updateItem fc w lastData i (mapItemsAt items i)))

/-- The method `OutputListModel::updateData`: stores the data unit and recomputes the rows
`0 .. rowCount() - 1` in order. -/
def OutputListModel.updateData (fc : FloatCodec) (w : OutputWidget) (data : QModbusDataUnit) :
    OutputWidget :=
  let items := (List.range (OutputListModel.rowCount w)).foldl (updateRow fc w data)
    w.listModel.mapItems
  { w with listModel := { mapItems := items, lastData := data } }

/-- The method `OutputListModel::clear`. -/
def OutputListModel.clear (fc : FloatCodec) (w : OutputWidget) : OutputWidget :=
  let w := { w with listModel := { w.listModel with mapItems := fun _ => none } }
  OutputListModel.updateData fc w {}

/-- The method `OutputListModel::update`. -/
def OutputListModel.update (fc : FloatCodec) (w : OutputWidget) : OutputWidget :=
  OutputListModel.updateData fc w w.listModel.lastData

/-- The method `OutputListModel::find`; a valid `QModelIndex` of the list model is its row
number, the invalid index is `none`. -/
def OutputListModel.find (w : OutputWidget) (type : RegisterType) (addr : Nat) : Option Nat :=
  if w.displayDefinition.PointType ≠ type then none
  else
    let row : Int := (addr : Int) - (w.displayDefinition.PointAddress : Int)
    if row ≥ 0 ∧ row < (OutputListModel.rowCount w : Int) then some row.toNat
    else none

/-- The method `OutputListModel::setData`: the returned flag and the new state. -/
def OutputListModel.setData (w : OutputWidget) (index : Option Nat) (role : SetDataRole) :
    Bool × OutputWidget :=
  match index with
  | none => (false, w)
  | some row =>
    match w.listModel.mapItems row with
    | none => (false, w)
    | some item =>
      match role with
      | .SimulationRole value =>
        (true, { w with listModel := { w.listModel with
          mapItems := Function.update w.listModel.mapItems row
            (some { item with Simulated := value }) } })
      | .DescriptionRole value =>
        (true, { w with listModel := { w.listModel with
          mapItems := Function.update w.listModel.mapItems row
            (some { item with Description := value }) } })
      | .Other => (false, w)

/-! ## Operations of `OutputWidget` -/

/-- The method `OutputWidget::setup`; `simulations` stands for `simulations.keys()`. -/
def OutputWidget.setup (fc : FloatCodec) (w : OutputWidget) (dd : DisplayDefinition)
    (simulations : List (RegisterType × Nat)) : OutputWidget :=
  let w := { w with displayDefinition := dd }
  let w := OutputListModel.clear fc w
  let w := simulations.foldl
    (fun w key =>
      (OutputListModel.setData w (OutputListModel.find w key.1 key.2)
        (SetDataRole.SimulationRole true)).2) w
  OutputListModel.update fc w

/-- The method `OutputWidget::setDisplayHexAddresses`. -/
def OutputWidget.setDisplayHexAddresses (fc : FloatCodec) (w : OutputWidget) (onFlag : Bool) :
    OutputWidget :=
  OutputListModel.update fc { w with displayHexAddresses := onFlag }

/-- The method `OutputWidget::setSimulated`. -/
def OutputWidget.setSimulated (w : OutputWidget) (type : RegisterType) (addr : Nat)
    (onFlag : Bool) : OutputWidget :=
  (OutputListModel.setData w (OutputListModel.find w type addr)
    (SetDataRole.SimulationRole onFlag)).2

/-- The method `OutputWidget::setDataDisplayMode`. -/
def OutputWidget.setDataDisplayMode (fc : FloatCodec) (w : OutputWidget)
    (mode : DataDisplayMode) : OutputWidget :=
  OutputListModel.update fc { w with dataDisplayMode := mode }

/-- The method `OutputWidget::setByteOrder`. -/
def OutputWidget.setByteOrder (fc : FloatCodec) (w : OutputWidget) (order : ByteOrder) :
    OutputWidget :=
  OutputListModel.update fc { w with byteOrder := order }

/-- Model of `QString::remove(QChar)`: every occurrence of the character is dropped. -/
def qRemove (c : Char) (s : String) : String :=
  String.mk (s.data.filter (fun x => x != c))

/-- Model of `QAbstractListModel::index(row)`: a valid index for the rows below the row
count, the invalid index otherwise. -/
def OutputListModel.index (w : OutputWidget) (row : Nat) : Option Nat :=
  if row < OutputListModel.rowCount w then some row else none

/-- The method `OutputListModel::data` for `CaptureRole`, with the `toString()` its caller
applies: an invalid index or a missing entry gives an empty `QVariant`, hence the empty
string. -/
def OutputListModel.dataCapture (w : OutputWidget) (index : Option Nat) : String :=
  match index with
  | none => ""
  | some row =>
    match w.listModel.mapItems row with
    | none => ""
    | some itemData => qRemove '>' (qRemove '<' itemData.ValueStr)

/-- The method `OutputWidget::captureString`; `now` stands for
`QDateTime::currentDateTime().toString(Qt::ISODateWithMs)`, and the capture file is
represented by the text written to it. -/
def OutputWidget.captureString (w : OutputWidget) (now : String) (s : String) : OutputWidget :=
  if w.captureOpen then
    { w with captureText := w.captureText ++ now ++ " " ++
        formatAddress w.displayDefinition.PointType w.displayDefinition.PointAddress false ++
        " " ++ s ++ "\n" }
  else w

/-- The method `OutputWidget::updateData`; the capture mode is `TextCapture` exactly when
the capture file is open. -/
def OutputWidget.updateData (fc : FloatCodec) (w : OutputWidget) (now : String)
    (data : QModbusDataUnit) : OutputWidget :=
  let w := OutputListModel.updateData fc w data
  if w.captureOpen then
    let capstr := (List.range (OutputListModel.rowCount w)).map
      (fun i => OutputListModel.dataCapture w (OutputListModel.index w i))
    OutputWidget.captureString w now (String.intercalate " " capstr)
  else w

/-- The parts of a `QModbusPdu` read by `updateTrafficWidget`: the function code, the
exception flag and the data bytes. -/
structure QModbusPdu where
  functionCode : Nat
  isException : Bool
  data : List Nat

/-- The text appended for one byte `c` of a frame in `updateTrafficWidget`: three decimal
digits in the Decimal and Integer display modes, two base-16 digits otherwise, in square
brackets; `(uchar)c` is the byte value. -/
def trafficByteText (mode : DataDisplayMode) (c : Nat) : String :=
  match mode with
  | .Decimal | .Integer => String.mk (['['] ++ qPad 3 '0' (qNumber 10 (c % 256)) ++ [']'])
  | _ => String.mk (['['] ++ qPad 2 '0' (qNumber 16 (c % 256)) ++ [']'])

/-- The bytes collected in `rawData` by `updateTrafficWidget`: the server address, the
function code with the exception bit, then the data of the frame. -/
def trafficRawData (server : Nat) (pdu : QModbusPdu) : List Nat :=
  [server % 256, (pdu.functionCode ||| (if pdu.isException then 0x80 else 0)) % 256] ++ pdu.data

/-- The text built by the loop of `updateTrafficWidget` over the bytes of `rawData`. -/
def trafficFrameText (mode : DataDisplayMode) (rawData : List Nat) : String :=
  rawData.foldl (fun text c => text ++ trafficByteText mode c) ""

/-- The method `OutputWidget::updateTrafficWidget`, on the plain text of the traffic pane
(the character formats it sets are left out). -/
def OutputWidget.updateTrafficWidget (w : OutputWidget) (request : Bool) (server : Nat)
    (pdu : QModbusPdu) : OutputWidget :=
  let text := trafficFrameText w.dataDisplayMode (trafficRawData server pdu)
  if text = "" then w
  else
    let plain := if request && decide (w.trafficText.length > 22000) then "" else w.trafficText
    { w with trafficText := plain ++ text }

/-! ## The status bar totals of `mainstatusbar.cpp` -/

/-- The two counters of a `FormModSca` read by the status bar. -/
structure FormModSca where
  numberOfPolls : Nat
  validSlaveResposes : Nat
  deriving DecidableEq, Repr

/-- The widget held by an MDI sub-window: a `FormModSca` or some other widget. -/
inductive Widget where
  | formModSca (frm : FormModSca)
  | other
  deriving DecidableEq, Repr

/-- An element of `_mdiArea->subWindowList()` with the result of `wnd->widget()`, which may
be null. The pointers in the list themselves are not null. -/
structure QMdiSubWindow where
  widget : Option Widget
  deriving DecidableEq, Repr

/-- The cast `dynamic_cast<FormModSca*>(wnd->widget())`: `none` is the null pointer of a
failed cast. -/
def castFormModSca (wnd : QMdiSubWindow) : Option FormModSca :=
  match wnd.widget with
  | some (Widget.formModSca frm) => some frm
  | _ => none

/-- The total computed by `MainStatusBar::updateNumberOfPolls` (a `uint`). -/
def MainStatusBar.updateNumberOfPolls (subWindowList : List QMdiSubWindow) : Nat :=
  subWindowList.foldl
    (fun polls wnd =>
      match castFormModSca wnd with
      | some frm => (polls + frm.numberOfPolls) % 2 ^ 32
      | none => polls) 0

/-- The total computed by `MainStatusBar::updateValidSlaveResponses` (a `uint`). The test
of the loop is `if(wnd)`, which holds for every element of the list, so the result of the cast
is dereferenced unconditionally; `none` stands for the dereference of a null pointer. -/
def MainStatusBar.updateValidSlaveResponses (subWindowList : List QMdiSubWindow) :
    Option Nat :=
  subWindowList.foldl
    (fun resps wnd =>
      match resps with
      | none => none
      | some total =>
        match castFormModSca wnd with
        | some frm => some ((total + frm.validSlaveResposes) % 2 ^ 32)
        | none => none) (some 0)

/-! ## Reference notions used to state the properties -/

/-- Uppercase base-16 digit of a value below sixteen. -/
def upperHexDigit (d : Nat) : Char :=
  "0123456789ABCDEF".data.getD d '?'

/-- The `k` least significant digits of `n` in base `b`, most significant first. -/
def fixedDigits (b : Nat) : Nat → Nat → List Char
  | 0, _ => []
  | k + 1, n => fixedDigits b k (n / b) ++ [qDigit (n % b)]

/-- Value of a digit character, in either letter case. -/
def digitValue (c : Char) : Option Nat :=
  if 48 ≤ c.toNat ∧ c.toNat ≤ 57 then some (c.toNat - 48)
  else if 97 ≤ c.toNat ∧ c.toNat ≤ 122 then some (c.toNat - 87)
  else if 65 ≤ c.toNat ∧ c.toNat ≤ 90 then some (c.toNat - 55)
  else none

/-- One step of reading a numeral: the value read so far is extended by one digit. -/
def parseStep (base : Nat) (acc : Option Nat) (c : Char) : Option Nat :=
  match acc, digitValue c with
  | some a, some d => if d < base then some (a * base + d) else none
  | _, _ => none

/-- Reads a possibly empty sequence of digits of the given base. -/
def parseDigits (base : Nat) (cs : List Char) : Option Nat :=
  cs.foldl (parseStep base) (some 0)

/-- Reads an unsigned numeral of the given base: at least one digit, nothing else. -/
def parseUnsigned (base : Nat) (cs : List Char) : Option Nat :=
  if cs = [] then none else parseDigits base cs

/-- Reads a signed base-10 numeral, after skipping leading blanks. -/
def parseSigned (cs : List Char) : Option Int :=
  match cs.dropWhile (fun c => c == ' ') with
  | '-' :: rest => (parseUnsigned 10 rest).map (fun (n : Nat) => -(n : Int))
  | rest => (parseUnsigned 10 rest).map (fun (n : Nat) => (n : Int))

/-- Removes one given character from the end of a text. -/
def stripSuffixChar (c : Char) (cs : List Char) : Option (List Char) :=
  if cs.getLast? = some c then some cs.dropLast else none

/-- Removes the enclosing `<` and `>` of a display string. -/
def stripBrackets (s : String) : Option (List Char) :=
  match s.data with
  | '<' :: rest => stripSuffixChar '>' rest
  | _ => none

/-- Reads a Binary mode display string back. -/
def decodeBinary (s : String) : Option Nat :=
  (stripBrackets s).bind (parseUnsigned 2)

/-- Reads a Decimal mode display string back. -/
def decodeDecimal (s : String) : Option Nat :=
  (stripBrackets s).bind (parseUnsigned 10)

/-- Reads an Integer mode display string back. -/
def decodeInteger (s : String) : Option Int :=
  (stripBrackets s).bind parseSigned

/-- Reads a Hex mode display string back. -/
def decodeHex (s : String) : Option Nat :=
  ((stripBrackets s).bind (stripSuffixChar 'H')).bind (parseUnsigned 16)

/-! ## Sample inputs used to instantiate the statements -/

/-- Sample floating point helpers. -/
def sampleCodec : FloatCodec :=
  { makeFloat := fun v1 v2 _ => v1 * 65536 + v2,
    makeDouble := fun v1 v2 v3 v4 _ => ((v1 * 65536 + v2) * 65536 + v3) * 65536 + v4,
    floatToString := fun _ => "f",
    doubleToString := fun _ => "d" }

/-- A sample table: HoldingRegisters, base address 100, four rows, nothing recomputed yet. -/
def sampleWidget : OutputWidget :=
  { displayDefinition :=
      { PointType := RegisterType.HoldingRegisters, PointAddress := 100, Length := 4 },
    displayHexAddresses := false,
    dataDisplayMode := DataDisplayMode.Hex,
    byteOrder := ByteOrder.LittleEndian,
    listModel := { mapItems := fun _ => none, lastData := {} },
    captureOpen := false,
    captureText := "",
    trafficText := "" }

/-- A sample snapshot: the four words 1, 2, 3, 4 read at address 100. -/
def sampleData : QModbusDataUnit :=
  { type := RegisterType.HoldingRegisters, startAddress := 100,
    values := [0x0001, 0x0002, 0x0003, 0x0004] }

/-- A sample table state with four recomputed rows, row 1 described and simulated. -/
def sampleAnnotated : OutputWidget :=
  (OutputListModel.setData
    (OutputWidget.setSimulated (OutputListModel.updateData sampleCodec sampleWidget sampleData)
      RegisterType.HoldingRegisters 101 true)
    (some 1) (SetDataRole.DescriptionRole "pump speed")).2

/-- The entry of row 1 of the sample annotated table. -/
def sampleAnnotatedRow : ItemData :=
  { Address := 101, Value := QVariant.int 2, ValueStr := "<0002H>",
    Description := "pump speed", Simulated := true }

/-- The number of consecutive words one value takes in a display mode. -/
def groupSize : DataDisplayMode → Nat
  | .Binary | .Decimal | .Integer | .Hex => 1
  | .FloatingPt | .SwappedFP => 2
  | .DblFloat | .SwappedDbl => 4

/-- Whether a recompute formats row `i` of the table: every row in the single-word modes,
every row of a bit kind, and for a word kind in a multi-word mode of group size `g` the rows
with `i % g = 0` and `i + g - 1` below the row count. -/
def rowFormatted (w : OutputWidget) (i : Nat) : Bool :=
  decide (groupSize w.dataDisplayMode = 1) ||
  decide (w.displayDefinition.PointType = RegisterType.Coils) ||
  decide (w.displayDefinition.PointType = RegisterType.DiscreteInputs) ||
  (decide (w.displayDefinition.PointType ≠ RegisterType.Invalid) &&
    decide (i % groupSize w.dataDisplayMode = 0) &&
    decide (i + groupSize w.dataDisplayMode - 1 < w.displayDefinition.Length))

/-- A sample table first recomputed in Hex mode, then switched to FloatingPt. -/
def sampleHexThenFloat : OutputWidget :=
  OutputWidget.setDataDisplayMode sampleCodec
    (OutputListModel.updateData sampleCodec sampleWidget sampleData) DataDisplayMode.FloatingPt

/-- The same sample table in FloatingPt mode with nothing recomputed before. -/
def sampleFreshFloat : OutputWidget :=
  { sampleWidget with dataDisplayMode := DataDisplayMode.FloatingPt }

/-- A sample Coils table of two rows under a byte-swapping order, in Binary mode. -/
def sampleCoils : OutputWidget :=
  { sampleWidget with
    displayDefinition := { PointType := RegisterType.Coils, PointAddress := 0, Length := 2 },
    dataDisplayMode := DataDisplayMode.Binary,
    byteOrder := ByteOrder.BigEndianByteSwapped }

/-- A sample snapshot of two coils, the first set and the second cleared. -/
def sampleCoilData : QModbusDataUnit :=
  { type := RegisterType.Coils, startAddress := 0, values := [1, 0] }

/-- The display string of row `i` of a table, empty when the row does not exist. -/
def rowDisplay (w : OutputWidget) (i : Nat) : String :=
  ((w.listModel.mapItems i).map ItemData.ValueStr).getD ""

/-- A text with every `<` and `>` removed. -/
def withoutBrackets (s : String) : String :=
  String.mk (s.data.filter (fun c => c != '<' && c != '>'))

/-- A sample list of MDI sub-windows: a `FormModSca` with 3 polls and 2 valid responses,
followed by a window that holds another widget. -/
def sampleSubWindows : List QMdiSubWindow :=
  [{ widget := some (Widget.formModSca { numberOfPolls := 3, validSlaveResposes := 2 }) },
   { widget := some Widget.other }]

/-! ## Number rendering -/

theorem numberCore_step (b fuel n : Nat) (hf : n < fuel) :
    numberCore b fuel n =
      if n < b then [qDigit n] else numberCore b (fuel - 1) (n / b) ++ [qDigit (n % b)] := by
  cases fuel with
  | zero => omega
  | succ f => simp [numberCore]

theorem fixedDigits_zero (b k : Nat) : fixedDigits b k 0 = List.replicate k '0' := by
  induction k with
  | zero => rfl
  | succ k ih =>
    have h0 : qDigit 0 = '0' := by decide
    simp [fixedDigits, ih, h0, List.replicate_succ']

theorem fixedDigits_length (b k n : Nat) : (fixedDigits b k n).length = k := by
  induction k generalizing n with
  | zero => rfl
  | succ k ih => simp [fixedDigits, ih]

/-- Padding the rendering of `n` with zeros up to `k` digits gives the `k` low digits of `n`,
as soon as `n` fits in `k` digits. -/
theorem pad_numberCore (b : Nat) (hb : 2 ≤ b) (k : Nat) :
    ∀ fuel n, n < b ^ (k + 1) → n < fuel →
      (numberCore b fuel n).length ≤ k + 1 ∧
      List.replicate (k + 1 - (numberCore b fuel n).length) '0' ++ numberCore b fuel n
        = fixedDigits b (k + 1) n := by
  induction k with
  | zero =>
    intro fuel n hn hf
    have hn' : n < b := by simpa using hn
    rw [numberCore_step b fuel n hf]
    simp [hn', fixedDigits, Nat.mod_eq_of_lt hn']
  | succ k ih =>
    intro fuel n hn hf
    rw [numberCore_step b fuel n hf]
    by_cases hlt : n < b
    · have hdiv : n / b = 0 := Nat.div_eq_of_lt hlt
      simp only [hlt, if_true, List.length_singleton]
      refine ⟨by omega, ?_⟩
      have : fixedDigits b (k + 1 + 1) n = fixedDigits b (k + 1) 0 ++ [qDigit n] := by
        simp [fixedDigits, hdiv, Nat.mod_eq_of_lt hlt]
      rw [this, fixedDigits_zero]
      simp
    · have hpos : 0 < b := by omega
      have hq : n / b < b ^ (k + 1) := by
        apply Nat.div_lt_of_lt_mul
        calc n < b ^ (k + 1 + 1) := hn
          _ = b * b ^ (k + 1) := by ring
      have hqf : n / b < fuel - 1 := by
        have : n / b < n := Nat.div_lt_self (by omega) (by omega)
        omega
      obtain ⟨hlen, heq⟩ := ih (fuel - 1) (n / b) hq hqf
      simp only [hlt, if_false, List.length_append, List.length_singleton]
      refine ⟨by omega, ?_⟩
      have hsub : k + 1 + 1 - ((numberCore b (fuel - 1) (n / b)).length + 1)
          = k + 1 - (numberCore b (fuel - 1) (n / b)).length := by omega
      rw [hsub, ← List.append_assoc, heq]
      rfl

theorem qPad_qNumber (b : Nat) (hb : 2 ≤ b) (k n : Nat) (hn : n < b ^ (k + 1)) :
    qPad (k + 1) '0' (qNumber b n) = fixedDigits b (k + 1) n :=
  (pad_numberCore b hb k (n + 1) n hn (Nat.lt_succ_self n)).2

theorem qDigit_toUpper (d : Nat) (hd : d < 16) : (qDigit d).toUpper = upperHexDigit d := by
  interval_cases d <;> decide

/-! ## The recompute loop, row by row -/

theorem foldl_updateRow (fc : FloatCodec) (w : OutputWidget) (data : QModbusDataUnit)
    (items : Nat → Option ItemData) (n j : Nat) :
    (List.range n).foldl (updateRow fc w data) items j =
      if j < n then some (updateItem fc w data j (mapItemsAt items j)) else items j := by
  induction n with
  | zero => simp
  | succ n ih =>
    rw [List.range_succ, List.foldl_append]
    simp only [List.foldl_cons, List.foldl_nil]
    by_cases hj : j = n
    · subst hj
      have hsame : (List.range j).foldl (updateRow fc w data) items j = items j := by
        rw [ih]; simp
      simp [updateRow, mapItemsAt, hsame]
    · have hne : j ≠ n := hj
      rw [updateRow, Function.update_noteq hne, ih]
      by_cases hlt : j < n
      · have : j < n + 1 := by omega
        simp [hlt, this]
      · have : ¬ j < n + 1 := by omega
        simp [hlt, this]

/-- Row `j` after `OutputListModel::updateData`: recomputed from the entry that was there
(or from a fresh entry) when `j` is below the row count, untouched otherwise. -/
theorem updateData_mapItems (fc : FloatCodec) (w : OutputWidget) (data : QModbusDataUnit)
    (j : Nat) :
    (OutputListModel.updateData fc w data).listModel.mapItems j =
      if j < w.displayDefinition.Length then
        some (updateItem fc w data j (mapItemsAt w.listModel.mapItems j))
      else w.listModel.mapItems j := by
  simp [OutputListModel.updateData, OutputListModel.rowCount, foldl_updateRow]

theorem updateData_settings (fc : FloatCodec) (w : OutputWidget) (data : QModbusDataUnit) :
    (OutputListModel.updateData fc w data).displayDefinition = w.displayDefinition ∧
    (OutputListModel.updateData fc w data).dataDisplayMode = w.dataDisplayMode ∧
    (OutputListModel.updateData fc w data).byteOrder = w.byteOrder ∧
    (OutputListModel.updateData fc w data).displayHexAddresses = w.displayHexAddresses ∧
    (OutputListModel.updateData fc w data).listModel.lastData = data := by
  simp [OutputListModel.updateData]

/-! ## Hex mode (C1) -/

theorem toByteOrderValue_lt (w : Nat) (order : ByteOrder) :
    toByteOrderValue w order < 65536 := by
  unfold toByteOrderValue
  split <;> omega

theorem toByteOrderValue_of_not_swap (w : Nat) (order : ByteOrder) (hw : w < 65536)
    (ho : order.swapsBytes = false) : toByteOrderValue w order = w := by
  simp [toByteOrderValue, ho, Nat.mod_eq_of_lt hw]

/-- The Hex mode string of a word kind, digit by digit, in terms of the reordered word. -/
theorem formatHexValue_digits (pointType : RegisterType) (w : Nat) (order : ByteOrder)
    (hk : pointType = RegisterType.HoldingRegisters ∨ pointType = RegisterType.InputRegisters) :
    formatHexValue pointType w order =
      (String.mk ['<', upperHexDigit (toByteOrderValue w order / 4096 % 16),
        upperHexDigit (toByteOrderValue w order / 256 % 16),
        upperHexDigit (toByteOrderValue w order / 16 % 16),
        upperHexDigit (toByteOrderValue w order % 16), 'H', '>'],
       QVariant.int (toByteOrderValue w order)) := by
  have hlt := toByteOrderValue_lt w order
  have hpad : qPad 4 '0' (qNumber 16 (toByteOrderValue w order))
      = fixedDigits 16 4 (toByteOrderValue w order) :=
    qPad_qNumber 16 (by decide) 3 _ (by simpa using hlt)
  have h3 : ∀ v, v / 16 / 16 / 16 % 16 = v / 4096 % 16 := by
    intro v
    rw [Nat.div_div_eq_div_mul, Nat.div_div_eq_div_mul]
  have h2 : ∀ v, v / 16 / 16 % 16 = v / 256 % 16 := by
    intro v
    rw [Nat.div_div_eq_div_mul]
  have hH : Char.toUpper 'H' = 'H' := by decide
  have hl : Char.toUpper '<' = '<' := by decide
  have hg : Char.toUpper '>' = '>' := by decide
  have hd : ∀ d, (qDigit (d % 16)).toUpper = upperHexDigit (d % 16) :=
    fun d => qDigit_toUpper _ (Nat.mod_lt _ (by decide))
  rcases hk with hk | hk <;> subst hk <;>
    simp [formatHexValue, hpad, fixedDigits, qToUpper, hH, hl, hg, hd, h3, h2]

/-- C1: for a 16-bit word `w` of a word kind, under a byte order that does not swap bytes,
`formatHexValue` returns `<`, the four base-16 digits of `w` in uppercase (zero padded), then
`H>`; and a 4-row HoldingRegisters table recomputed in Hex mode from the words 1, 2, 3, 4 shows
`<0001H>`, `<0002H>`, `<0003H>`, `<0004H>` in row order. -/
theorem C1_formatHexValue_display :
    (∀ (pointType : RegisterType) (w : Nat) (order : ByteOrder),
      (pointType = RegisterType.HoldingRegisters ∨ pointType = RegisterType.InputRegisters) →
      w < 65536 → order.swapsBytes = false →
      (formatHexValue pointType w order).1 =
        String.mk ['<', upperHexDigit (w / 4096 % 16), upperHexDigit (w / 256 % 16),
          upperHexDigit (w / 16 % 16), upperHexDigit (w % 16), 'H', '>']) ∧
    (∀ (fc : FloatCodec) (st : OutputWidget) (data : QModbusDataUnit),
      st.displayDefinition.PointType = RegisterType.HoldingRegisters →
      st.displayDefinition.Length = 4 →
      st.dataDisplayMode = DataDisplayMode.Hex →
      st.byteOrder.swapsBytes = false →
      data.values = [0x0001, 0x0002, 0x0003, 0x0004] →
      (List.range 4).map (fun i =>
          ((OutputListModel.updateData fc st data).listModel.mapItems i).map ItemData.ValueStr)
        = [some "<0001H>", some "<0002H>", some "<0003H>", some "<0004H>"]) := by
  constructor
  · intro pointType w order hk hw ho
    rw [formatHexValue_digits pointType w order hk,
      toByteOrderValue_of_not_swap w order hw ho]
  · intro fc st data hpt hlen hmode ho hvals
    have hr : List.range 4 = [0, 1, 2, 3] := by decide
    have hrow : ∀ v, v < 65536 →
        (formatHexValue RegisterType.HoldingRegisters v st.byteOrder).1 =
          String.mk ['<', upperHexDigit (v / 4096 % 16), upperHexDigit (v / 256 % 16),
            upperHexDigit (v / 16 % 16), upperHexDigit (v % 16), 'H', '>'] := by
      intro v hv
      rw [formatHexValue_digits _ v st.byteOrder (Or.inl rfl),
        toByteOrderValue_of_not_swap v _ hv ho]
    simp only [hr, List.map_cons, List.map_nil, updateData_mapItems, hlen, updateItem, hmode,
      hpt, QModbusDataUnit.value, hvals]
    simp only [show (0 : Nat) < 4 by decide, show (1 : Nat) < 4 by decide,
      show (2 : Nat) < 4 by decide, show (3 : Nat) < 4 by decide, if_true, Option.map_some',
      List.getD_cons_zero, List.getD_cons_succ]
    rw [hrow 1 (by decide), hrow 2 (by decide), hrow 3 (by decide), hrow 4 (by decide)]
    decide

theorem C1_formatHexValue_display_witness :
    (formatHexValue RegisterType.InputRegisters 0xBEEF ByteOrder.BigEndian).1 =
        String.mk ['<', upperHexDigit (0xBEEF / 4096 % 16), upperHexDigit (0xBEEF / 256 % 16),
          upperHexDigit (0xBEEF / 16 % 16), upperHexDigit (0xBEEF % 16), 'H', '>'] ∧
    (List.range 4).map (fun i =>
          ((OutputListModel.updateData sampleCodec sampleWidget sampleData).listModel.mapItems
            i).map ItemData.ValueStr)
        = [some "<0001H>", some "<0002H>", some "<0003H>", some "<0004H>"] :=
  ⟨C1_formatHexValue_display.1 RegisterType.InputRegisters 0xBEEF ByteOrder.BigEndian
      (Or.inr rfl) (by decide) rfl,
    C1_formatHexValue_display.2 sampleCodec sampleWidget sampleData rfl rfl rfl rfl rfl⟩

/-! ## Reading display strings back (C2) -/

theorem digitValue_qDigit (d : Nat) (hd : d < 16) : digitValue (qDigit d) = some d := by
  interval_cases d <;> decide

theorem digitValue_upperHexDigit (d : Nat) (hd : d < 16) :
    digitValue (upperHexDigit d) = some d := by
  interval_cases d <;> decide

theorem qDigit_ne_blank (d : Nat) (hd : d < 16) : qDigit d ≠ ' ' ∧ qDigit d ≠ '-' := by
  interval_cases d <;> decide

theorem parseDigits_concat (b : Nat) (xs : List Char) (c : Char) :
    parseDigits b (xs ++ [c]) = parseStep b (parseDigits b xs) c := by
  simp [parseDigits, List.foldl_append]

theorem parseStep_qDigit (b : Nat) (hb16 : b ≤ 16) (a d : Nat) (hd : d < b) :
    parseStep b (some a) (qDigit d) = some (a * b + d) := by
  simp [parseStep, digitValue_qDigit d (by omega), hd]

/-- The rendering of a number starts with a digit and reads back as the number. -/
theorem numberCore_read (b : Nat) (hb : 2 ≤ b) (hb16 : b ≤ 16) :
    ∀ fuel n, n < fuel →
      (∃ d rest, d < b ∧ numberCore b fuel n = qDigit d :: rest) ∧
      parseDigits b (numberCore b fuel n) = some n := by
  intro fuel
  induction fuel with
  | zero => intro n hn; omega
  | succ f ih =>
    intro n hn
    rw [numberCore_step b (f + 1) n hn]
    by_cases hlt : n < b
    · simp only [hlt, if_true]
      refine ⟨⟨n, [], hlt, rfl⟩, ?_⟩
      have := parseStep_qDigit b hb16 0 n hlt
      simpa [parseDigits] using this
    · have hq : n / b < f := by
        have : n / b < n := Nat.div_lt_self (by omega) (by omega)
        omega
      obtain ⟨⟨d, rest, hd, hrest⟩, hparse⟩ := ih (n / b) hq
      simp only [hlt, if_false, Nat.add_sub_cancel]
      refine ⟨⟨d, rest ++ [qDigit (n % b)], hd, by rw [hrest]; rfl⟩, ?_⟩
      rw [parseDigits_concat, hparse,
        parseStep_qDigit b hb16 (n / b) (n % b) (Nat.mod_lt _ (by omega))]
      congr 1
      exact Nat.div_add_mod' n b

theorem qNumber_read (b : Nat) (hb : 2 ≤ b) (hb16 : b ≤ 16) (n : Nat) :
    (∃ d rest, d < b ∧ qNumber b n = qDigit d :: rest) ∧
    parseDigits b (qNumber b n) = some n :=
  numberCore_read b hb hb16 (n + 1) n (Nat.lt_succ_self n)

theorem parseDigits_zeros (b : Nat) (hb : 2 ≤ b) (j : Nat) (xs : List Char) :
    parseDigits b (List.replicate j '0' ++ xs) = parseDigits b xs := by
  have h0 : parseStep b (some 0) '0' = some 0 := by
    have hd : digitValue '0' = some 0 := by decide
    have hpos : 0 < b := by omega
    simp [parseStep, hd, hpos]
  induction j with
  | zero => simp
  | succ j ih =>
    have : parseDigits b (List.replicate (j + 1) '0' ++ xs)
        = parseDigits b (List.replicate j '0' ++ xs) := by
      simp only [parseDigits, List.replicate_succ, List.cons_append, List.foldl_cons, h0]
    rw [this, ih]

/-- A zero-padded rendering reads back as the number, whatever the field width. -/
theorem parseUnsigned_qPad (b : Nat) (hb : 2 ≤ b) (hb16 : b ≤ 16) (k n : Nat) :
    parseUnsigned b (qPad k '0' (qNumber b n)) = some n := by
  obtain ⟨⟨d, rest, _, hrest⟩, hparse⟩ := qNumber_read b hb hb16 n
  have hne : qPad k '0' (qNumber b n) ≠ [] := by
    simp [qPad, hrest]
  simp only [parseUnsigned, hne, if_false]
  rw [qPad, parseDigits_zeros b hb, hparse]

theorem parseUnsigned_qNumber (b : Nat) (hb : 2 ≤ b) (hb16 : b ≤ 16) (n : Nat) :
    parseUnsigned b (qNumber b n) = some n := by
  obtain ⟨⟨d, rest, _, hrest⟩, hparse⟩ := qNumber_read b hb hb16 n
  have hne : qNumber b n ≠ [] := by simp [hrest]
  simp only [parseUnsigned, hne, if_false, hparse]

theorem stripSuffixChar_concat (c : Char) (xs : List Char) :
    stripSuffixChar c (xs ++ [c]) = some xs := by
  simp [stripSuffixChar]

theorem stripBrackets_mk (body : List Char) :
    stripBrackets (String.mk (['<'] ++ body ++ ['>'])) = some body := by
  show (match '<' :: (body ++ ['>']) with
    | '<' :: rest => stripSuffixChar '>' rest
    | _ => none) = some body
  simp only [stripSuffixChar_concat]

theorem dropWhile_blank_replicate (j : Nat) (xs : List Char) :
    (List.replicate j ' ' ++ xs).dropWhile (fun c => c == ' ')
      = xs.dropWhile (fun c => c == ' ') := by
  induction j with
  | zero => simp
  | succ j ih => simp [List.replicate_succ, List.dropWhile_cons, ih]

/-- A blank-padded signed rendering reads back as the number. -/
theorem parseSigned_qPad (k : Nat) (v : Int) :
    parseSigned (qPad k ' ' (qNumberInt v)) = some v := by
  unfold parseSigned
  rw [qPad, dropWhile_blank_replicate]
  by_cases hv : v < 0
  · have hnum : qNumberInt v = '-' :: qNumber 10 v.natAbs := by simp [qNumberInt, hv]
    have hdrop : (qNumberInt v).dropWhile (fun c => c == ' ') = '-' :: qNumber 10 v.natAbs := by
      rw [hnum]
      simp [List.dropWhile_cons]
    rw [hdrop]
    have habs : ((v.natAbs : Nat) : Int) = -v := Int.ofNat_natAbs_of_nonpos (by omega)
    simp only [parseUnsigned_qNumber 10 (by decide) (by decide), Option.map_some', habs,
      neg_neg]
  · obtain ⟨⟨d, rest, hd, hrest⟩, _⟩ := qNumber_read 10 (by decide) (by decide) v.toNat
    have hnum : qNumberInt v = qNumber 10 v.toNat := by simp [qNumberInt, hv]
    obtain ⟨hb1, hb2⟩ := qDigit_ne_blank d (by omega)
    have hdrop : (qNumberInt v).dropWhile (fun c => c == ' ') = qDigit d :: rest := by
      rw [hnum, hrest]
      simp [List.dropWhile_cons, hb1]
    rw [hdrop]
    have hread := parseUnsigned_qNumber 10 (by decide) (by decide) v.toNat
    rw [hrest] at hread
    split
    · next r heq =>
      exact absurd (List.cons.inj heq).1 hb2
    · rw [hread]
      simp only [Option.map_some']
      congr 1
      omega

theorem toUInt16_toInt16 (v : Nat) (hv : v < 65536) : toUInt16 (toInt16 v) = v := by
  unfold toUInt16 toInt16
  split <;> omega

theorem decodeHex_digits (v : Nat) (hv : v < 65536) :
    decodeHex (String.mk ['<', upperHexDigit (v / 4096 % 16), upperHexDigit (v / 256 % 16),
        upperHexDigit (v / 16 % 16), upperHexDigit (v % 16), 'H', '>']) = some v := by
  have d3 := digitValue_upperHexDigit (v / 4096 % 16) (Nat.mod_lt _ (by decide))
  have d2 := digitValue_upperHexDigit (v / 256 % 16) (Nat.mod_lt _ (by decide))
  have d1 := digitValue_upperHexDigit (v / 16 % 16) (Nat.mod_lt _ (by decide))
  have d0 := digitValue_upperHexDigit (v % 16) (Nat.mod_lt _ (by decide))
  have m3 : v / 4096 % 16 < 16 := Nat.mod_lt _ (by decide)
  have m2 : v / 256 % 16 < 16 := Nat.mod_lt _ (by decide)
  have m1 : v / 16 % 16 < 16 := Nat.mod_lt _ (by decide)
  have m0 : v % 16 < 16 := Nat.mod_lt _ (by decide)
  simp only [decodeHex, stripBrackets, stripSuffixChar, List.getLast?_cons_cons,
    List.getLast?_singleton, if_true, List.dropLast_cons₂, List.dropLast_single,
    Option.some_bind, parseUnsigned, parseDigits, List.foldl_cons, List.foldl_nil, parseStep,
    d3, d2, d1, d0, m3, m2, m1, m0]
  simp only [List.cons_ne_nil, if_false, Option.some.injEq]
  omega

/-- C2: for a 16-bit word of a word kind and any byte order, reading the Binary, Decimal,
Integer or Hex display string back (brackets and the Hex suffix removed, base 2, 10, signed 10
or 16) gives the byte-order-reordered word, as a 16-bit pattern in Integer mode, and the
formatter returns that same reordered value as its decoded value. -/
theorem C2_format_decode_roundtrip (pointType : RegisterType) (w : Nat) (order : ByteOrder)
    (hk : pointType = RegisterType.HoldingRegisters ∨ pointType = RegisterType.InputRegisters)
    (hw : w < 65536) :
    (decodeBinary (formatBinaryValue pointType w order).1 = some (toByteOrderValue w order) ∧
      (formatBinaryValue pointType w order).2 = QVariant.int (toByteOrderValue w order)) ∧
    (decodeDecimal (formatDecimalValue pointType w order).1 = some (toByteOrderValue w order) ∧
      (formatDecimalValue pointType w order).2 = QVariant.int (toByteOrderValue w order)) ∧
    (decodeInteger (formatIntegerValue pointType (toInt16 w) order).1
        = some (toInt16 (toByteOrderValue w order)) ∧
      toUInt16 (toInt16 (toByteOrderValue w order)) = toByteOrderValue w order ∧
      (formatIntegerValue pointType (toInt16 w) order).2
        = QVariant.int (toInt16 (toByteOrderValue w order))) ∧
    (decodeHex (formatHexValue pointType w order).1 = some (toByteOrderValue w order) ∧
      (formatHexValue pointType w order).2 = QVariant.int (toByteOrderValue w order)) := by
  have hlt := toByteOrderValue_lt w order
  have hback : toUInt16 (toInt16 w) = w := toUInt16_toInt16 w hw
  refine ⟨⟨?_, ?_⟩, ⟨?_, ?_⟩, ⟨?_, toUInt16_toInt16 _ hlt, ?_⟩, ⟨?_, ?_⟩⟩
  · rcases hk with hk | hk <;> subst hk <;>
      simp only [formatBinaryValue, decodeBinary, stripBrackets_mk, Option.some_bind,
        parseUnsigned_qPad 2 (by decide) (by decide)]
  · rcases hk with hk | hk <;> subst hk <;> rfl
  · rcases hk with hk | hk <;> subst hk <;>
      simp only [formatDecimalValue, decodeDecimal, stripBrackets_mk, Option.some_bind,
        parseUnsigned_qPad 10 (by decide) (by decide)]
  · rcases hk with hk | hk <;> subst hk <;> rfl
  · rcases hk with hk | hk <;> subst hk <;>
      simp only [formatIntegerValue, decodeInteger, stripBrackets_mk, Option.some_bind,
        parseSigned_qPad, hback]
  · rcases hk with hk | hk <;> subst hk <;> simp only [formatIntegerValue, hback]
  · rw [formatHexValue_digits pointType w order hk]
    exact decodeHex_digits _ hlt
  · rw [formatHexValue_digits pointType w order hk]

theorem C2_format_decode_roundtrip_witness :
    (decodeBinary (formatBinaryValue RegisterType.HoldingRegisters 0x80FF
          ByteOrder.BigEndianByteSwapped).1
        = some (toByteOrderValue 0x80FF ByteOrder.BigEndianByteSwapped) ∧
      (formatBinaryValue RegisterType.HoldingRegisters 0x80FF ByteOrder.BigEndianByteSwapped).2
        = QVariant.int (toByteOrderValue 0x80FF ByteOrder.BigEndianByteSwapped)) ∧
    (decodeDecimal (formatDecimalValue RegisterType.HoldingRegisters 0x80FF
          ByteOrder.BigEndianByteSwapped).1
        = some (toByteOrderValue 0x80FF ByteOrder.BigEndianByteSwapped) ∧
      (formatDecimalValue RegisterType.HoldingRegisters 0x80FF ByteOrder.BigEndianByteSwapped).2
        = QVariant.int (toByteOrderValue 0x80FF ByteOrder.BigEndianByteSwapped)) ∧
    (decodeInteger (formatIntegerValue RegisterType.HoldingRegisters (toInt16 0x80FF)
          ByteOrder.BigEndianByteSwapped).1
        = some (toInt16 (toByteOrderValue 0x80FF ByteOrder.BigEndianByteSwapped)) ∧
      toUInt16 (toInt16 (toByteOrderValue 0x80FF ByteOrder.BigEndianByteSwapped))
        = toByteOrderValue 0x80FF ByteOrder.BigEndianByteSwapped ∧
      (formatIntegerValue RegisterType.HoldingRegisters (toInt16 0x80FF)
          ByteOrder.BigEndianByteSwapped).2
        = QVariant.int (toInt16 (toByteOrderValue 0x80FF ByteOrder.BigEndianByteSwapped))) ∧
    (decodeHex (formatHexValue RegisterType.HoldingRegisters 0x80FF
          ByteOrder.BigEndianByteSwapped).1
        = some (toByteOrderValue 0x80FF ByteOrder.BigEndianByteSwapped) ∧
      (formatHexValue RegisterType.HoldingRegisters 0x80FF ByteOrder.BigEndianByteSwapped).2
        = QVariant.int (toByteOrderValue 0x80FF ByteOrder.BigEndianByteSwapped)) :=
  C2_format_decode_roundtrip RegisterType.HoldingRegisters 0x80FF
    ByteOrder.BigEndianByteSwapped (Or.inl rfl) (by decide)

/-! ## Multi-word modes (C3) -/

/-- The display string of row `i` after a recompute. -/
theorem updateData_valueStr (fc : FloatCodec) (st : OutputWidget) (data : QModbusDataUnit)
    (i : Nat) (hi : i < st.displayDefinition.Length) :
    ((OutputListModel.updateData fc st data).listModel.mapItems i).map ItemData.ValueStr =
      some (updateItem fc st data i (mapItemsAt st.listModel.mapItems i)).ValueStr := by
  rw [updateData_mapItems]
  simp [hi]

/-- C3: in a word-kind table of `N` rows recomputed in a multi-word mode of group size `g`
(2 for FloatingPt and SwappedFP, 4 for DblFloat and SwappedDbl), a row `i` with `i % g ≠ 0` or
`i + g - 1 ≥ N` gets the empty display string, and every other row shows the rendering of the
value assembled from the snapshot words `i .. i + g - 1` (in reverse operand order for the
swapped modes); with two rows in FloatingPt mode, row 0 is decoded from the words 0 and 1 and
row 1 is empty. -/
theorem C3_multiword_rows (fc : FloatCodec) (st : OutputWidget) (data : QModbusDataUnit)
    (hk : st.displayDefinition.PointType = RegisterType.HoldingRegisters ∨
      st.displayDefinition.PointType = RegisterType.InputRegisters) :
    (∀ i, i < st.displayDefinition.Length →
      (st.dataDisplayMode = DataDisplayMode.FloatingPt →
        ((OutputListModel.updateData fc st data).listModel.mapItems i).map ItemData.ValueStr =
          some (if i % 2 ≠ 0 ∨ i + 1 ≥ st.displayDefinition.Length then ""
            else fc.floatToString
              (fc.makeFloat (data.value i) (data.value (i + 1)) st.byteOrder))) ∧
      (st.dataDisplayMode = DataDisplayMode.SwappedFP →
        ((OutputListModel.updateData fc st data).listModel.mapItems i).map ItemData.ValueStr =
          some (if i % 2 ≠ 0 ∨ i + 1 ≥ st.displayDefinition.Length then ""
            else fc.floatToString
              (fc.makeFloat (data.value (i + 1)) (data.value i) st.byteOrder))) ∧
      (st.dataDisplayMode = DataDisplayMode.DblFloat →
        ((OutputListModel.updateData fc st data).listModel.mapItems i).map ItemData.ValueStr =
          some (if i % 4 ≠ 0 ∨ i + 3 ≥ st.displayDefinition.Length then ""
            else fc.doubleToString
              (fc.makeDouble (data.value i) (data.value (i + 1)) (data.value (i + 2))
                (data.value (i + 3)) st.byteOrder))) ∧
      (st.dataDisplayMode = DataDisplayMode.SwappedDbl →
        ((OutputListModel.updateData fc st data).listModel.mapItems i).map ItemData.ValueStr =
          some (if i % 4 ≠ 0 ∨ i + 3 ≥ st.displayDefinition.Length then ""
            else fc.doubleToString
              (fc.makeDouble (data.value (i + 3)) (data.value (i + 2)) (data.value (i + 1))
                (data.value i) st.byteOrder)))) ∧
    (st.displayDefinition.Length = 2 → st.dataDisplayMode = DataDisplayMode.FloatingPt →
      ((OutputListModel.updateData fc st data).listModel.mapItems 0).map ItemData.ValueStr =
        some (fc.floatToString (fc.makeFloat (data.value 0) (data.value 1) st.byteOrder)) ∧
      ((OutputListModel.updateData fc st data).listModel.mapItems 1).map ItemData.ValueStr =
        some "") := by
  constructor
  · intro i hi
    refine ⟨?_, ?_, ?_, ?_⟩ <;> intro hmode <;> rw [updateData_valueStr fc st data i hi] <;>
      rcases hk with hk | hk <;>
      simp only [updateItem, hmode, hk, formatFloatValue, formatDoubleValue,
        OutputListModel.rowCount, Bool.or_eq_true, decide_eq_true_eq] <;>
      split <;> rfl
  · intro hlen hmode
    rw [updateData_valueStr fc st data 0 (by omega), updateData_valueStr fc st data 1 (by omega)]
    rcases hk with hk | hk <;>
      simp [updateItem, hmode, hk, formatFloatValue, OutputListModel.rowCount, hlen]

theorem C3_multiword_rows_witness :
    (4 % 4 = 0 ∧ 4 + 3 < 8) ∧
    ((OutputListModel.updateData sampleCodec
        { sampleWidget with
          displayDefinition :=
            { PointType := RegisterType.InputRegisters, PointAddress := 0, Length := 8 },
          dataDisplayMode := DataDisplayMode.SwappedDbl }
        { sampleData with values := [1, 2, 3, 4, 5, 6, 7, 8] }).listModel.mapItems 4).map
        ItemData.ValueStr =
      some (if 4 % 4 ≠ 0 ∨ 4 + 3 ≥ 8 then ""
        else sampleCodec.doubleToString (sampleCodec.makeDouble 8 7 6 5
          ByteOrder.LittleEndian)) :=
  ⟨by decide,
    ((C3_multiword_rows sampleCodec
        { sampleWidget with
          displayDefinition :=
            { PointType := RegisterType.InputRegisters, PointAddress := 0, Length := 8 },
          dataDisplayMode := DataDisplayMode.SwappedDbl }
        { sampleData with values := [1, 2, 3, 4, 5, 6, 7, 8] } (Or.inr rfl)).1 4
      (by decide)).2.2.2 rfl⟩

/-! ## Address labels (C4, C5) -/

theorem string_mk_inj {a b : List Char} (h : String.mk a = String.mk b) : a = b :=
  congrArg String.data h

/-- The decimal label: the kind prefix followed by the offset in base 10, zero padded to four
digits; it reads back as the offset. -/
theorem formatAddress_decimal (pointType : RegisterType) (address : Nat) :
    formatAddress pointType address false =
      String.mk (addressPrefix pointType ++ qPad 4 '0' (qNumber 10 address)) ∧
    parseUnsigned 10 (qPad 4 '0' (qNumber 10 address)) = some address ∧
    4 ≤ (qPad 4 '0' (qNumber 10 address)).length := by
  refine ⟨by simp [formatAddress], parseUnsigned_qPad 10 (by decide) (by decide) 4 address, ?_⟩
  simp only [qPad, List.length_append, List.length_replicate]
  omega

/-- The hex label: the offset in base 16, zero padded to four digits, then `H`; the kind does
not take part. -/
theorem formatAddress_hex (pointType : RegisterType) (address : Nat) :
    formatAddress pointType address true =
      String.mk (qPad 4 '0' (qNumber 16 address) ++ ['H']) ∧
    parseUnsigned 16 (qPad 4 '0' (qNumber 16 address)) = some address :=
  ⟨by simp [formatAddress], parseUnsigned_qPad 16 (by decide) (by decide) 4 address⟩

/-- C4: the hex label of offset 10 is `000aH`: its base-16 digits are lowercase, not the
uppercase `000AH`, while the Hex value formatter of the same file does render `<000AH>`. -/
theorem C4_formatAddress_hex_lowercase :
    formatAddress RegisterType.HoldingRegisters 10 true = "000aH" ∧
    formatAddress RegisterType.HoldingRegisters 10 true ≠ "000AH" ∧
    (formatHexValue RegisterType.HoldingRegisters 10 ByteOrder.LittleEndian).1 = "<000AH>" ∧
    formatAddress RegisterType.HoldingRegisters 10 false = "40010" := by
  decide

/-- C5 as stated fails: in the hex rendering the two different pairs (Coils, 5) and
(HoldingRegisters, 5) get the same label. -/
theorem C5_hex_not_injective :
    (RegisterType.Coils, 5) ≠ (RegisterType.HoldingRegisters, 5) ∧
    formatAddress RegisterType.Coils 5 true = formatAddress RegisterType.HoldingRegisters 5 true ∧
    formatAddress RegisterType.Coils 5 true = "0005H" := by
  decide

/-- C5, amended: in the decimal rendering `formatAddress` is injective over (kind, offset)
pairs whose kinds are among the four point kinds; in the hex rendering the label has no kind
prefix, and two pairs get the same label exactly when their offsets are equal. -/
theorem C5_formatAddress_injective :
    (∀ (k1 k2 : RegisterType) (o1 o2 : Nat),
      k1 ≠ RegisterType.Invalid → k2 ≠ RegisterType.Invalid →
      formatAddress k1 o1 false = formatAddress k2 o2 false → k1 = k2 ∧ o1 = o2) ∧
    (∀ (k1 k2 : RegisterType) (o1 o2 : Nat),
      formatAddress k1 o1 true = formatAddress k2 o2 true ↔ o1 = o2) := by
  constructor
  · intro k1 k2 o1 o2 h1 h2 heq
    rw [(formatAddress_decimal k1 o1).1, (formatAddress_decimal k2 o2).1] at heq
    have hlist := string_mk_inj heq
    have hr1 := (formatAddress_decimal k1 o1).2.1
    have hr2 := (formatAddress_decimal k2 o2).2.1
    have hoff : qPad 4 '0' (qNumber 10 o1) = qPad 4 '0' (qNumber 10 o2) → o1 = o2 := by
      intro h
      rw [h, hr2] at hr1
      exact (Option.some.inj hr1).symm
    cases k1 <;> cases k2 <;> simp only [addressPrefix, List.singleton_append, List.cons.injEq,
      ne_eq, not_true_eq_false, reduceCtorEq] at hlist h1 h2 ⊢ <;>
      first
        | exact ⟨trivial, hoff hlist.2⟩
        | exact absurd hlist.1 (by decide)
  · intro k1 k2 o1 o2
    constructor
    · intro heq
      rw [(formatAddress_hex k1 o1).1, (formatAddress_hex k2 o2).1] at heq
      have hlist := List.append_cancel_right (string_mk_inj heq)
      have hr1 := (formatAddress_hex k1 o1).2
      rw [hlist, (formatAddress_hex k2 o2).2] at hr1
      exact (Option.some.inj hr1).symm
    · intro h
      subst h
      rw [(formatAddress_hex k1 o1).1, (formatAddress_hex k2 o1).1]

theorem C5_formatAddress_injective_witness :
    (RegisterType.InputRegisters ≠ RegisterType.Invalid ∧
      RegisterType.Coils ≠ RegisterType.Invalid) ∧
    (formatAddress RegisterType.InputRegisters 1 false = formatAddress RegisterType.Coils 30001 false →
      RegisterType.InputRegisters = RegisterType.Coils ∧ 1 = 30001) ∧
    (formatAddress RegisterType.Coils 255 true = formatAddress RegisterType.DiscreteInputs 255 true
      ↔ 255 = 255) :=
  ⟨by decide,
    C5_formatAddress_injective.1 RegisterType.InputRegisters RegisterType.Coils 1 30001
      (by decide) (by decide),
    C5_formatAddress_injective.2 RegisterType.Coils RegisterType.DiscreteInputs 255 255⟩

/-! ## Row lookup and the simulated flag (C6, C7) -/

theorem find_eq_some (w : OutputWidget) (type : RegisterType) (addr : Nat)
    (h : type = w.displayDefinition.PointType ∧ w.displayDefinition.PointAddress ≤ addr ∧
      addr < w.displayDefinition.PointAddress + w.displayDefinition.Length) :
    OutputListModel.find w type addr = some (addr - w.displayDefinition.PointAddress) := by
  obtain ⟨hk, h1, h2⟩ := h
  have hr : ((addr : Int) - (w.displayDefinition.PointAddress : Int)) ≥ 0 ∧
      ((addr : Int) - (w.displayDefinition.PointAddress : Int))
        < (w.displayDefinition.Length : Int) := by omega
  have ht : ((addr : Int) - (w.displayDefinition.PointAddress : Int)).toNat
      = addr - w.displayDefinition.PointAddress := by omega
  have hk' : ¬ w.displayDefinition.PointType ≠ type := by simp [hk]
  unfold OutputListModel.find OutputListModel.rowCount
  rw [if_neg hk']
  show (if _ then _ else _) = _
  rw [if_pos hr, ht]

theorem find_eq_none (w : OutputWidget) (type : RegisterType) (addr : Nat)
    (h : ¬ (type = w.displayDefinition.PointType ∧ w.displayDefinition.PointAddress ≤ addr ∧
      addr < w.displayDefinition.PointAddress + w.displayDefinition.Length)) :
    OutputListModel.find w type addr = none := by
  unfold OutputListModel.find OutputListModel.rowCount
  by_cases hk : w.displayDefinition.PointType ≠ type
  · rw [if_pos hk]
  · rw [if_neg hk]
    have hk' : type = w.displayDefinition.PointType := by
      by_contra hne
      exact hk (fun heq => hne heq.symm)
    have hr : ¬ (((addr : Int) - (w.displayDefinition.PointAddress : Int)) ≥ 0 ∧
        ((addr : Int) - (w.displayDefinition.PointAddress : Int))
          < (w.displayDefinition.Length : Int)) := by
      intro hr
      exact h ⟨hk', by omega, by omega⟩
    show (if _ then _ else _) = _
    rw [if_neg hr]

/-- C6: `find` returns the row `address - B` exactly when the queried kind is the table's kind
`K` and `B ≤ address < B + L`, and the invalid index in every other case. -/
theorem C6_find_row (w : OutputWidget) (type : RegisterType) (addr : Nat) :
    OutputListModel.find w type addr =
      if type = w.displayDefinition.PointType ∧ w.displayDefinition.PointAddress ≤ addr ∧
          addr < w.displayDefinition.PointAddress + w.displayDefinition.Length
      then some (addr - w.displayDefinition.PointAddress) else none := by
  by_cases h : type = w.displayDefinition.PointType ∧ w.displayDefinition.PointAddress ≤ addr ∧
      addr < w.displayDefinition.PointAddress + w.displayDefinition.Length
  · rw [if_pos h, find_eq_some w type addr h]
  · rw [if_neg h, find_eq_none w type addr h]

/-- C7: on a recomputed table, `setSimulated(kind, address, flag)` with the table's kind and
an address in range replaces the entry of row `address - base` by the same entry with its
simulated flag set to `flag`, and leaves every other row and every other part of the state as
it was; with another kind or an address out of range the state is unchanged. -/
theorem C7_setSimulated_frame (fc : FloatCodec) (st0 : OutputWidget) (data : QModbusDataUnit)
    (type : RegisterType) (addr : Nat) (onFlag : Bool) :
    ((type = st0.displayDefinition.PointType ∧ st0.displayDefinition.PointAddress ≤ addr ∧
        addr < st0.displayDefinition.PointAddress + st0.displayDefinition.Length) →
      ∃ item,
        (OutputListModel.updateData fc st0 data).listModel.mapItems
          (addr - st0.displayDefinition.PointAddress) = some item ∧
        OutputWidget.setSimulated (OutputListModel.updateData fc st0 data) type addr onFlag =
          { OutputListModel.updateData fc st0 data with
            listModel :=
              { (OutputListModel.updateData fc st0 data).listModel with
                mapItems := Function.update
                  (OutputListModel.updateData fc st0 data).listModel.mapItems
                  (addr - st0.displayDefinition.PointAddress)
                  (some { item with Simulated := onFlag }) } } ∧
        ((OutputWidget.setSimulated (OutputListModel.updateData fc st0 data) type addr
            onFlag).listModel.mapItems (addr - st0.displayDefinition.PointAddress)
          = some { item with Simulated := onFlag }) ∧
        (∀ j, j ≠ addr - st0.displayDefinition.PointAddress →
          (OutputWidget.setSimulated (OutputListModel.updateData fc st0 data) type addr
            onFlag).listModel.mapItems j
          = (OutputListModel.updateData fc st0 data).listModel.mapItems j)) ∧
    (¬ (type = st0.displayDefinition.PointType ∧ st0.displayDefinition.PointAddress ≤ addr ∧
        addr < st0.displayDefinition.PointAddress + st0.displayDefinition.Length) →
      OutputWidget.setSimulated (OutputListModel.updateData fc st0 data) type addr onFlag =
        OutputListModel.updateData fc st0 data) := by
  have hdd := (updateData_settings fc st0 data).1
  constructor
  · intro h
    have hfind : OutputListModel.find (OutputListModel.updateData fc st0 data) type addr
        = some (addr - st0.displayDefinition.PointAddress) := by
      have := find_eq_some (OutputListModel.updateData fc st0 data) type addr (by rw [hdd]; exact h)
      rw [hdd] at this
      exact this
    have hrow := updateData_mapItems fc st0 data (addr - st0.displayDefinition.PointAddress)
    have hlt : addr - st0.displayDefinition.PointAddress < st0.displayDefinition.Length := by
      omega
    rw [if_pos hlt] at hrow
    refine ⟨_, hrow, ?_, ?_, ?_⟩
    · simp only [OutputWidget.setSimulated, hfind, OutputListModel.setData, hrow]
    · simp only [OutputWidget.setSimulated, hfind, OutputListModel.setData, hrow,
        Function.update_same]
    · intro j hj
      simp only [OutputWidget.setSimulated, hfind, OutputListModel.setData, hrow,
        Function.update_noteq hj]
  · intro h
    have hfind : OutputListModel.find (OutputListModel.updateData fc st0 data) type addr
        = none :=
      find_eq_none (OutputListModel.updateData fc st0 data) type addr (by rw [hdd]; exact h)
    simp only [OutputWidget.setSimulated, hfind, OutputListModel.setData]

theorem C7_setSimulated_frame_witness :
    (RegisterType.HoldingRegisters = sampleWidget.displayDefinition.PointType ∧
      sampleWidget.displayDefinition.PointAddress ≤ 102 ∧
      102 < sampleWidget.displayDefinition.PointAddress + sampleWidget.displayDefinition.Length) ∧
    (¬ (RegisterType.Coils = sampleWidget.displayDefinition.PointType ∧
      sampleWidget.displayDefinition.PointAddress ≤ 102 ∧
      102 < sampleWidget.displayDefinition.PointAddress + sampleWidget.displayDefinition.Length)) ∧
    (∃ item,
      (OutputListModel.updateData sampleCodec sampleWidget sampleData).listModel.mapItems
        (102 - sampleWidget.displayDefinition.PointAddress) = some item ∧
      OutputWidget.setSimulated (OutputListModel.updateData sampleCodec sampleWidget sampleData)
          RegisterType.HoldingRegisters 102 true =
        { OutputListModel.updateData sampleCodec sampleWidget sampleData with
          listModel :=
            { (OutputListModel.updateData sampleCodec sampleWidget sampleData).listModel with
              mapItems := Function.update
                (OutputListModel.updateData sampleCodec sampleWidget sampleData).listModel.mapItems
                (102 - sampleWidget.displayDefinition.PointAddress)
                (some { item with Simulated := true }) } } ∧
      ((OutputWidget.setSimulated (OutputListModel.updateData sampleCodec sampleWidget sampleData)
          RegisterType.HoldingRegisters 102 true).listModel.mapItems
          (102 - sampleWidget.displayDefinition.PointAddress)
        = some { item with Simulated := true }) ∧
      (∀ j, j ≠ 102 - sampleWidget.displayDefinition.PointAddress →
        (OutputWidget.setSimulated (OutputListModel.updateData sampleCodec sampleWidget sampleData)
          RegisterType.HoldingRegisters 102 true).listModel.mapItems j
        = (OutputListModel.updateData sampleCodec sampleWidget sampleData).listModel.mapItems j)) ∧
    OutputWidget.setSimulated (OutputListModel.updateData sampleCodec sampleWidget sampleData)
        RegisterType.Coils 102 true =
      OutputListModel.updateData sampleCodec sampleWidget sampleData :=
  ⟨by decide, by decide,
    (C7_setSimulated_frame sampleCodec sampleWidget sampleData RegisterType.HoldingRegisters 102
      true).1 (by decide),
    (C7_setSimulated_frame sampleCodec sampleWidget sampleData RegisterType.Coils 102
      true).2 (by decide)⟩

/-! ## Annotations across recomputes (C8) -/

theorem updateItem_annotations (fc : FloatCodec) (w : OutputWidget) (data : QModbusDataUnit)
    (i : Nat) (item : ItemData) :
    (updateItem fc w data i item).Description = item.Description ∧
    (updateItem fc w data i item).Simulated = item.Simulated := by
  simp [updateItem]

/-- A row that exists keeps its description and simulated flag through
`OutputListModel::updateData`. -/
theorem updateData_annotations (fc : FloatCodec) (w : OutputWidget) (data : QModbusDataUnit)
    (j : Nat) (item : ItemData) (h : w.listModel.mapItems j = some item) :
    ∃ item', (OutputListModel.updateData fc w data).listModel.mapItems j = some item' ∧
      item'.Description = item.Description ∧ item'.Simulated = item.Simulated := by
  rw [updateData_mapItems]
  by_cases hj : j < w.displayDefinition.Length
  · rw [if_pos hj]
    refine ⟨_, rfl, ?_⟩
    have := updateItem_annotations fc w data j item
    simpa [mapItemsAt, h] using this
  · rw [if_neg hj]
    exact ⟨item, h, rfl, rfl⟩

/-- C8: whatever the table state, a recompute leaves the description and the simulated flag
of every row as they were: this holds for `updateData` with any snapshot, for `update`, and for
the three setters that change the display mode, the byte order or the hex-address flag and
then run `update`. -/
theorem C8_recompute_keeps_annotations (fc : FloatCodec) (st : OutputWidget) (j : Nat)
    (item : ItemData) (h : st.listModel.mapItems j = some item) :
    (∀ data : QModbusDataUnit,
      ∃ item', (OutputListModel.updateData fc st data).listModel.mapItems j = some item' ∧
        item'.Description = item.Description ∧ item'.Simulated = item.Simulated) ∧
    (∃ item', (OutputListModel.update fc st).listModel.mapItems j = some item' ∧
        item'.Description = item.Description ∧ item'.Simulated = item.Simulated) ∧
    (∀ mode : DataDisplayMode,
      ∃ item', (OutputWidget.setDataDisplayMode fc st mode).listModel.mapItems j = some item' ∧
        item'.Description = item.Description ∧ item'.Simulated = item.Simulated) ∧
    (∀ order : ByteOrder,
      ∃ item', (OutputWidget.setByteOrder fc st order).listModel.mapItems j = some item' ∧
        item'.Description = item.Description ∧ item'.Simulated = item.Simulated) ∧
    (∀ onFlag : Bool,
      ∃ item', (OutputWidget.setDisplayHexAddresses fc st onFlag).listModel.mapItems j
          = some item' ∧
        item'.Description = item.Description ∧ item'.Simulated = item.Simulated) := by
  refine ⟨fun data => updateData_annotations fc st data j item h,
    updateData_annotations fc st _ j item h,
    fun mode => updateData_annotations fc { st with dataDisplayMode := mode } _ j item h,
    fun order => updateData_annotations fc { st with byteOrder := order } _ j item h,
    fun onFlag => updateData_annotations fc { st with displayHexAddresses := onFlag } _ j item h⟩

theorem C8_recompute_keeps_annotations_witness :
    sampleAnnotated.listModel.mapItems 1 = some sampleAnnotatedRow ∧
    ∃ item', (OutputWidget.setDataDisplayMode sampleCodec sampleAnnotated
        DataDisplayMode.FloatingPt).listModel.mapItems 1 = some item' ∧
      item'.Description = sampleAnnotatedRow.Description ∧
      item'.Simulated = sampleAnnotatedRow.Simulated :=
  ⟨by decide,
    (C8_recompute_keeps_annotations sampleCodec sampleAnnotated 1 sampleAnnotatedRow
      (by decide)).2.2.1 DataDisplayMode.FloatingPt⟩

/-! ## Reset and validity (C9, C10) -/

theorem updateData_isValid (fc : FloatCodec) (st : OutputWidget) (data : QModbusDataUnit) :
    OutputListModel.isValid (OutputListModel.updateData fc st data) = data.isValid := by
  simp [OutputListModel.isValid, OutputListModel.updateData]

theorem clear_isValid (fc : FloatCodec) (st : OutputWidget) :
    OutputListModel.isValid (OutputListModel.clear fc st) = false := by
  rw [OutputListModel.clear, updateData_isValid]
  rfl

theorem setData_lastData (st : OutputWidget) (index : Option Nat) (role : SetDataRole) :
    (OutputListModel.setData st index role).2.listModel.lastData = st.listModel.lastData ∧
    (OutputListModel.setData st index role).2.displayDefinition = st.displayDefinition := by
  unfold OutputListModel.setData
  cases index with
  | none => exact ⟨rfl, rfl⟩
  | some row =>
    cases hrow : st.listModel.mapItems row with
    | none => simp only [hrow, and_self]
    | some item => cases role <;> simp only [hrow, and_self]

theorem setData_fold_lastData (simulations : List (RegisterType × Nat)) (st : OutputWidget) :
    (simulations.foldl
      (fun w key =>
        (OutputListModel.setData w (OutputListModel.find w key.1 key.2)
          (SetDataRole.SimulationRole true)).2) st).listModel.lastData
      = st.listModel.lastData := by
  induction simulations generalizing st with
  | nil => rfl
  | cons key rest ih =>
    rw [List.foldl_cons, ih]
    exact (setData_lastData st _ _).1

theorem setup_isValid (fc : FloatCodec) (st : OutputWidget) (dd : DisplayDefinition)
    (simulations : List (RegisterType × Nat)) :
    OutputListModel.isValid (OutputWidget.setup fc st dd simulations) = false := by
  unfold OutputWidget.setup OutputListModel.update
  rw [updateData_isValid, setData_fold_lastData]
  exact clear_isValid fc _

/-- C9: `isValid` is false right after `clear` and after `setup` (which resets through
`clear`), whatever the prior state; `update`, the setters that run it and `setSimulated` do not
change it, so it stays false across refreshes until a snapshot is applied; and one `updateData`
with a snapshot, a valid data unit delivered by a read, after the reset makes it true (after
any `updateData` it is the validity of the data unit applied). -/
theorem C9_isValid_after_reset (fc : FloatCodec) (st : OutputWidget) :
    OutputListModel.isValid (OutputListModel.clear fc st) = false ∧
    (∀ (dd : DisplayDefinition) (simulations : List (RegisterType × Nat)),
      OutputListModel.isValid (OutputWidget.setup fc st dd simulations) = false) ∧
    (OutputListModel.isValid (OutputListModel.update fc st) = OutputListModel.isValid st ∧
      (∀ mode, OutputListModel.isValid (OutputWidget.setDataDisplayMode fc st mode)
        = OutputListModel.isValid st) ∧
      (∀ order, OutputListModel.isValid (OutputWidget.setByteOrder fc st order)
        = OutputListModel.isValid st) ∧
      (∀ onFlag, OutputListModel.isValid (OutputWidget.setDisplayHexAddresses fc st onFlag)
        = OutputListModel.isValid st) ∧
      (∀ type addr onFlag, OutputListModel.isValid (OutputWidget.setSimulated st type addr onFlag)
        = OutputListModel.isValid st)) ∧
    (∀ data : QModbusDataUnit,
      OutputListModel.isValid (OutputListModel.updateData fc st data) = data.isValid) ∧
    (∀ (dd : DisplayDefinition) (simulations : List (RegisterType × Nat))
      (data : QModbusDataUnit), data.isValid = true →
      OutputListModel.isValid
        (OutputListModel.updateData fc (OutputWidget.setup fc st dd simulations) data)
        = true) ∧
    (∀ data : QModbusDataUnit, data.isValid = true →
      OutputListModel.isValid (OutputListModel.updateData fc (OutputListModel.clear fc st) data)
        = true) ∧
    (∀ (dd : DisplayDefinition) (simulations : List (RegisterType × Nat)),
      OutputListModel.isValid (OutputListModel.update fc (OutputWidget.setup fc st dd simulations))
        = false) := by
  refine ⟨clear_isValid fc st, fun dd sims => setup_isValid fc st dd sims,
    ⟨?_, ?_, ?_, ?_, ?_⟩, fun data => updateData_isValid fc st data, ?_, ?_, ?_⟩
  · rw [OutputListModel.update, updateData_isValid]; rfl
  · intro mode
    rw [OutputWidget.setDataDisplayMode, OutputListModel.update, updateData_isValid]; rfl
  · intro order
    rw [OutputWidget.setByteOrder, OutputListModel.update, updateData_isValid]; rfl
  · intro onFlag
    rw [OutputWidget.setDisplayHexAddresses, OutputListModel.update, updateData_isValid]; rfl
  · intro type addr onFlag
    unfold OutputWidget.setSimulated OutputListModel.isValid
    rw [(setData_lastData st _ _).1]
  · intro dd sims data hvalid
    rw [updateData_isValid, hvalid]
  · intro data hvalid
    rw [updateData_isValid, hvalid]
  · intro dd sims
    rw [OutputListModel.update, updateData_isValid]
    exact setup_isValid fc st dd sims

theorem C9_isValid_after_reset_witness :
    sampleData.isValid = true ∧
    OutputListModel.isValid
      (OutputListModel.updateData sampleCodec
        (OutputWidget.setup sampleCodec sampleAnnotated
          { PointType := RegisterType.HoldingRegisters, PointAddress := 100, Length := 4 } [])
        sampleData) = true ∧
    OutputListModel.isValid
      (OutputListModel.updateData sampleCodec (OutputListModel.clear sampleCodec sampleAnnotated)
        sampleData) = true :=
  ⟨by decide,
    (C9_isValid_after_reset sampleCodec sampleAnnotated).2.2.2.2.1
      { PointType := RegisterType.HoldingRegisters, PointAddress := 100, Length := 4 } []
      sampleData (by decide),
    (C9_isValid_after_reset sampleCodec sampleAnnotated).2.2.2.2.2.1 sampleData (by decide)⟩

/-- C10: after `setup` with a point range of length `L` and no simulations, whatever the
table held before, the row count is `L`, the table has an entry for each row below `L` and for
no other row, and every entry has an empty description and a false simulated flag; the same
holds right after `clear`. -/
theorem C10_reset_rows (fc : FloatCodec) (st : OutputWidget) (dd : DisplayDefinition) (j : Nat) :
    OutputListModel.rowCount (OutputWidget.setup fc st dd []) = dd.Length ∧
    (j < dd.Length →
      ∃ item, (OutputWidget.setup fc st dd []).listModel.mapItems j = some item ∧
        item.Description = "" ∧ item.Simulated = false) ∧
    (dd.Length ≤ j → (OutputWidget.setup fc st dd []).listModel.mapItems j = none) ∧
    (j < st.displayDefinition.Length →
      ∃ item, (OutputListModel.clear fc st).listModel.mapItems j = some item ∧
        item.Description = "" ∧ item.Simulated = false) ∧
    (st.displayDefinition.Length ≤ j → (OutputListModel.clear fc st).listModel.mapItems j = none) := by
  have hclear : ∀ (w : OutputWidget),
      (j < w.displayDefinition.Length →
        ∃ item, (OutputListModel.clear fc w).listModel.mapItems j = some item ∧
          item.Description = "" ∧ item.Simulated = false) ∧
      (w.displayDefinition.Length ≤ j →
        (OutputListModel.clear fc w).listModel.mapItems j = none) := by
    intro w
    unfold OutputListModel.clear
    constructor
    · intro hj
      rw [updateData_mapItems]
      dsimp only
      rw [if_pos hj]
      refine ⟨_, rfl, ?_⟩
      have := updateItem_annotations fc
        { w with listModel := { w.listModel with mapItems := fun _ => none } } {} j
        (mapItemsAt (fun _ => none) j)
      simpa [mapItemsAt] using this
    · intro hj
      rw [updateData_mapItems]
      dsimp only
      rw [if_neg (by omega)]
  have hsetup : OutputWidget.setup fc st dd [] =
      OutputListModel.update fc (OutputListModel.clear fc { st with displayDefinition := dd }) := by
    simp [OutputWidget.setup]
  have hdd : (OutputListModel.clear fc { st with displayDefinition := dd }).displayDefinition
      = dd := by
    unfold OutputListModel.clear
    rw [(updateData_settings fc _ _).1]
  obtain ⟨hc1, hc2⟩ := hclear { st with displayDefinition := dd }
  refine ⟨?_, ?_, ?_, (hclear st).1, (hclear st).2⟩
  · rw [hsetup, OutputListModel.rowCount, OutputListModel.update,
      (updateData_settings fc _ _).1, hdd]
  · intro hj
    obtain ⟨item, hitem, hd, hs⟩ := hc1 hj
    rw [hsetup, OutputListModel.update]
    obtain ⟨item', hitem', hd', hs'⟩ := updateData_annotations fc _ _ j item hitem
    exact ⟨item', hitem', hd'.trans hd, hs'.trans hs⟩
  · intro hj
    rw [hsetup, OutputListModel.update, updateData_mapItems, hdd, if_neg (by omega)]
    exact hc2 hj

theorem C10_reset_rows_witness :
    (1 < 3 ∧ 3 ≤ 3) ∧
    (∃ item, (OutputWidget.setup sampleCodec sampleAnnotated
          { PointType := RegisterType.Coils, PointAddress := 7, Length := 3 } []).listModel.mapItems
          1 = some item ∧
        item.Description = "" ∧ item.Simulated = false) ∧
    (OutputWidget.setup sampleCodec sampleAnnotated
        { PointType := RegisterType.Coils, PointAddress := 7, Length := 3 } []).listModel.mapItems
        3 = none :=
  ⟨by decide,
    (C10_reset_rows sampleCodec sampleAnnotated
      { PointType := RegisterType.Coils, PointAddress := 7, Length := 3 } 1).2.1 (by decide),
    (C10_reset_rows sampleCodec sampleAnnotated
      { PointType := RegisterType.Coils, PointAddress := 7, Length := 3 } 3).2.2.1
      (by decide)⟩

/-! ## Decoded values across recomputes (C11, C12) -/

/-- On a row that the recompute formats, the decoded value depends on the settings, the
snapshot and the row number only, not on the entry that was there. -/
theorem updateItem_value_formatted (fc : FloatCodec) (st1 st2 : OutputWidget)
    (data : QModbusDataUnit) (i : Nat) (item1 item2 : ItemData)
    (hdd : st1.displayDefinition = st2.displayDefinition)
    (hmode : st1.dataDisplayMode = st2.dataDisplayMode)
    (horder : st1.byteOrder = st2.byteOrder)
    (hf : rowFormatted st1 i = true) :
    (updateItem fc st1 data i item1).Value = (updateItem fc st2 data i item2).Value := by
  unfold rowFormatted at hf
  unfold updateItem
  simp only [OutputListModel.rowCount]
  rw [hdd, hmode] at hf
  simp only [hdd, hmode, horder]
  cases hm : st2.dataDisplayMode <;> cases hp : st2.displayDefinition.PointType <;>
    simp [hm, hp, groupSize, formatFloatValue, formatDoubleValue] at hf ⊢ <;>
    (split <;> first | rfl | omega)

/-- On a row that the recompute does not format, the decoded value is the one the entry
had before, and the display string is empty. -/
theorem updateItem_value_not_formatted (fc : FloatCodec) (st : OutputWidget)
    (data : QModbusDataUnit) (i : Nat) (item : ItemData)
    (hf : rowFormatted st i = false) :
    (updateItem fc st data i item).Value = item.Value ∧
    (updateItem fc st data i item).ValueStr = "" := by
  unfold rowFormatted at hf
  unfold updateItem
  simp only [OutputListModel.rowCount]
  cases hm : st.dataDisplayMode <;> cases hp : st.displayDefinition.PointType <;>
    simp [hm, hp, groupSize, formatFloatValue, formatDoubleValue] at hf ⊢ <;>
    (split <;> first | exact ⟨rfl, rfl⟩ | omega)

/-- C11 as stated fails: two tables with the same point range, both recomputed with the same
snapshot in FloatingPt mode under the same byte order, differ in the decoded value of the blank
row 1: the table that was in Hex mode before still holds the Hex value 2 there, the other
holds no value. -/
theorem C11_blank_row_keeps_stale_value :
    sampleHexThenFloat.displayDefinition = sampleFreshFloat.displayDefinition ∧
    sampleHexThenFloat.dataDisplayMode = sampleFreshFloat.dataDisplayMode ∧
    sampleHexThenFloat.byteOrder = sampleFreshFloat.byteOrder ∧
    ((OutputListModel.updateData sampleCodec sampleHexThenFloat sampleData).listModel.mapItems
        1).map ItemData.Value = some (QVariant.int 2) ∧
    ((OutputListModel.updateData sampleCodec sampleFreshFloat sampleData).listModel.mapItems
        1).map ItemData.Value = some QVariant.invalid ∧
    ((OutputListModel.updateData sampleCodec sampleHexThenFloat sampleData).listModel.mapItems
        1).map ItemData.ValueStr = some "" := by
  decide

/-- A row that a multi-word mode leaves blank keeps the decoded value it had before the
recompute (no value when the row did not exist), and its display string is empty. -/
theorem updateData_blank_row (fc : FloatCodec) (data : QModbusDataUnit) (i : Nat)
    (st : OutputWidget) (hi : i < st.displayDefinition.Length)
    (hf : rowFormatted st i = false) :
    ((OutputListModel.updateData fc st data).listModel.mapItems i).map ItemData.Value =
      some (mapItemsAt st.listModel.mapItems i).Value ∧
    ((OutputListModel.updateData fc st data).listModel.mapItems i).map ItemData.ValueStr =
      some "" := by
  rw [updateData_mapItems, if_pos hi]
  simp only [Option.map_some']
  obtain ⟨h1, h2⟩ := updateItem_value_not_formatted fc st data i
    (mapItemsAt st.listModel.mapItems i) hf
  rw [h1, h2]
  exact ⟨rfl, rfl⟩

/-- C11, amended: on every row that the recompute formats (all rows in the single-word modes,
all rows of a bit kind, and for a word kind in a multi-word mode of group size `g` the rows
with `i % g = 0` and `i + g - 1` below the row count) the decoded value is determined by the
snapshot, the display mode, the byte order and the point range alone: two tables that agree on
these have equal decoded values there, whatever they were recomputed with before. The rows a
multi-word mode leaves blank are not covered. -/
theorem C11_decoded_value_determined (fc : FloatCodec) (data : QModbusDataUnit) (i : Nat)
    (st1 st2 : OutputWidget)
    (hdd : st1.displayDefinition = st2.displayDefinition)
    (hmode : st1.dataDisplayMode = st2.dataDisplayMode)
    (horder : st1.byteOrder = st2.byteOrder)
    (hi : i < st1.displayDefinition.Length)
    (hf : rowFormatted st1 i = true) :
    ((OutputListModel.updateData fc st1 data).listModel.mapItems i).map ItemData.Value =
      ((OutputListModel.updateData fc st2 data).listModel.mapItems i).map ItemData.Value ∧
    ((OutputListModel.updateData fc st1 data).listModel.mapItems i).isSome = true := by
  have hi2 : i < st2.displayDefinition.Length := by rw [← hdd]; exact hi
  rw [updateData_mapItems, updateData_mapItems, if_pos hi, if_pos hi2]
  simp only [Option.map_some']
  rw [updateItem_value_formatted fc st1 st2 data i _ (mapItemsAt st2.listModel.mapItems i)
    hdd hmode horder hf]
  exact ⟨rfl, rfl⟩

theorem C11_decoded_value_determined_witness :
    (sampleHexThenFloat.displayDefinition = sampleFreshFloat.displayDefinition ∧
      sampleHexThenFloat.dataDisplayMode = sampleFreshFloat.dataDisplayMode ∧
      sampleHexThenFloat.byteOrder = sampleFreshFloat.byteOrder ∧
      2 < sampleHexThenFloat.displayDefinition.Length ∧
      rowFormatted sampleHexThenFloat 2 = true) ∧
    (((OutputListModel.updateData sampleCodec sampleHexThenFloat sampleData).listModel.mapItems
        2).map ItemData.Value =
      ((OutputListModel.updateData sampleCodec sampleFreshFloat sampleData).listModel.mapItems
        2).map ItemData.Value ∧
    ((OutputListModel.updateData sampleCodec sampleHexThenFloat sampleData).listModel.mapItems
        2).isSome = true) :=
  ⟨by decide,
    C11_decoded_value_determined sampleCodec sampleData 2 sampleHexThenFloat
      sampleFreshFloat (by decide) (by decide) (by decide) (by decide) (by decide)⟩

theorem updateItem_idempotent (fc : FloatCodec) (st : OutputWidget) (data : QModbusDataUnit)
    (i : Nat) (item : ItemData) :
    updateItem fc st data i (updateItem fc st data i item) = updateItem fc st data i item := by
  unfold updateItem
  cases hm : st.dataDisplayMode <;> cases hp : st.displayDefinition.PointType <;>
    simp [formatFloatValue, formatDoubleValue] <;>
    (split <;> exact ⟨rfl, rfl⟩)

/-- C12: the recompute is idempotent: `update` right after `updateData` with a snapshot gives
the same state as that `updateData` alone, so every row keeps the address, display string,
decoded value, description and simulated flag the first application produced. -/
theorem C12_recompute_idempotent (fc : FloatCodec) (st : OutputWidget)
    (data : QModbusDataUnit) :
    OutputListModel.update fc (OutputListModel.updateData fc st data)
      = OutputListModel.updateData fc st data ∧
    ∀ j, (OutputListModel.update fc (OutputListModel.updateData fc st data)).listModel.mapItems j
      = (OutputListModel.updateData fc st data).listModel.mapItems j := by
  have hrows : ∀ j,
      (OutputListModel.update fc (OutputListModel.updateData fc st data)).listModel.mapItems j
        = (OutputListModel.updateData fc st data).listModel.mapItems j := by
    intro j
    have hdd := (updateData_settings fc st data).1
    have hlast := (updateData_settings fc st data).2.2.2.2
    rw [OutputListModel.update, updateData_mapItems, hdd, hlast]
    have hinner := updateData_mapItems fc st data j
    by_cases hj : j < st.displayDefinition.Length
    · rw [if_pos hj] at hinner
      rw [if_pos hj]
      simp only [mapItemsAt, hinner, Option.getD_some]
      have hsame : ∀ x, updateItem fc (OutputListModel.updateData fc st data) data j x
          = updateItem fc st data j x := fun _ => rfl
      rw [hsame]
      exact congrArg some (updateItem_idempotent fc st data j _)
    · rw [if_neg hj]
  refine ⟨?_, hrows⟩
  have hfun : (OutputListModel.update fc
      (OutputListModel.updateData fc st data)).listModel.mapItems
      = (OutputListModel.updateData fc st data).listModel.mapItems := funext hrows
  have hlast := (updateData_settings fc st data).2.2.2.2
  have hshape : OutputListModel.update fc (OutputListModel.updateData fc st data) =
      { st with listModel :=
          { mapItems := (OutputListModel.update fc
              (OutputListModel.updateData fc st data)).listModel.mapItems,
            lastData := data } } := rfl
  rw [hshape, hfun]
  rfl

/-! ## Bit kinds (C13) -/

/-- The display of a bit kind: the multi-word formatters print their first operand in
brackets, whatever the order and the flag (so the swapped modes, which pass the word of a later
row first, print that later row's bit), and the single-word formatters print the bit in
brackets under an order that does not swap bytes. -/
theorem bit_display (fc : FloatCodec) (pointType : RegisterType) (b : Nat) (order : ByteOrder)
    (hk : pointType = RegisterType.Coils ∨ pointType = RegisterType.DiscreteInputs)
    (hb : b = 0 ∨ b = 1) :
    (∀ (v2 : Nat) (flag : Bool) (old : QVariant),
      (formatFloatValue fc pointType b v2 order flag old).1 = String.mk ['<', qDigit b, '>'] ∧
      (formatFloatValue fc pointType v2 b order flag old).1
        = String.mk (['<'] ++ qNumber 10 v2 ++ ['>'])) ∧
    (∀ (v2 v3 v4 : Nat) (flag : Bool) (old : QVariant),
      (formatDoubleValue fc pointType b v2 v3 v4 order flag old).1
        = String.mk ['<', qDigit b, '>']) ∧
    (order.swapsBytes = false →
      (formatBinaryValue pointType b order).1 = String.mk ['<', qDigit b, '>'] ∧
      (formatDecimalValue pointType b order).1 = String.mk ['<', qDigit b, '>'] ∧
      (formatIntegerValue pointType (toInt16 b) order).1 = String.mk ['<', qDigit b, '>'] ∧
      (formatHexValue pointType b order).1 = String.mk ['<', qDigit b, '>']) := by
  refine ⟨?_, ?_, ?_⟩
  · intro v2 flag old
    rcases hk with hk | hk <;> rcases hb with hb | hb <;> subst hk <;> subst hb <;>
      exact ⟨rfl, rfl⟩
  · intro v2 v3 v4 flag old
    rcases hk with hk | hk <;> rcases hb with hb | hb <;> subst hk <;> subst hb <;> rfl
  · intro ho
    cases order <;> simp [ByteOrder.swapsBytes] at ho <;>
      rcases hk with hk | hk <;> rcases hb with hb | hb <;> subst hk <;> subst hb <;> decide

/-- C13: for a Coils table under a byte-swapping order the single-word modes show the set bit
as `<256>`, not `<1>`: the formatters reorder the bytes of the 16-bit value that carries the
bit before printing it. In the SwappedFP and SwappedDbl modes a row shows the bit of row
`i + 1` or `i + 3` instead of its own, so the set bit of row 0 shows as `<0>`. The FloatingPt
and DblFloat modes show `<1>`, `<0>`, and so do the single-word modes under an order that does
not swap bytes. -/
theorem C13_bit_display_diverges :
    (formatBinaryValue RegisterType.Coils 1 ByteOrder.BigEndianByteSwapped).1 = "<256>" ∧
    (formatDecimalValue RegisterType.Coils 1 ByteOrder.BigEndianByteSwapped).1 = "<256>" ∧
    (formatIntegerValue RegisterType.Coils (toInt16 1) ByteOrder.BigEndianByteSwapped).1
      = "<256>" ∧
    (formatHexValue RegisterType.Coils 1 ByteOrder.BigEndianByteSwapped).1 = "<256>" ∧
    (formatBinaryValue RegisterType.DiscreteInputs 1 ByteOrder.LittleEndianByteSwapped).1
      = "<256>" ∧
    (List.range 2).map (fun i =>
        ((OutputListModel.updateData sampleCodec sampleCoils sampleCoilData).listModel.mapItems
          i).map ItemData.ValueStr) = [some "<256>", some "<0>"] ∧
    (List.range 2).map (fun i =>
        ((OutputListModel.updateData sampleCodec
          { sampleCoils with dataDisplayMode := DataDisplayMode.SwappedFP,
                             byteOrder := ByteOrder.LittleEndian }
          sampleCoilData).listModel.mapItems i).map ItemData.ValueStr)
      = [some "<0>", some "<0>"] ∧
    (List.range 2).map (fun i =>
        ((OutputListModel.updateData sampleCodec
          { sampleCoils with dataDisplayMode := DataDisplayMode.SwappedDbl,
                             byteOrder := ByteOrder.LittleEndian }
          sampleCoilData).listModel.mapItems i).map ItemData.ValueStr)
      = [some "<0>", some "<0>"] ∧
    (List.range 2).map (fun i =>
        ((OutputListModel.updateData sampleCodec
          { sampleCoils with dataDisplayMode := DataDisplayMode.DblFloat }
          sampleCoilData).listModel.mapItems i).map ItemData.ValueStr)
      = [some "<1>", some "<0>"] ∧
    (List.range 2).map (fun i =>
        ((OutputListModel.updateData sampleCodec
          { sampleCoils with byteOrder := ByteOrder.BigEndian }
          sampleCoilData).listModel.mapItems i).map ItemData.ValueStr)
      = [some "<1>", some "<0>"] := by
  decide

/-! ## Integer, Binary and Decimal modes (C14, C15) -/

theorem qDigit_eq_digitChar (d : Nat) (hd : d < 16) : qDigit d = Nat.digitChar d := by
  interval_cases d <;> decide

/-- The number rendering of this file agrees with the standard positional conversion. -/
theorem numberCore_eq_toDigitsCore (b : Nat) (hb : 2 ≤ b) (hb16 : b ≤ 16) :
    ∀ fuel n ds, n < fuel → Nat.toDigitsCore b fuel n ds = numberCore b fuel n ++ ds := by
  intro fuel
  induction fuel with
  | zero => intro n ds hn; omega
  | succ f ih =>
    intro n ds hn
    have hmod : n % b < 16 := by
      have : n % b < b := Nat.mod_lt _ (by omega)
      omega
    by_cases hlt : n < b
    · have hdiv : n / b = 0 := Nat.div_eq_of_lt hlt
      simp [Nat.toDigitsCore, numberCore, hlt, hdiv, Nat.mod_eq_of_lt hlt,
        qDigit_eq_digitChar n (by omega)]
    · have hdiv : n / b ≠ 0 := by
        intro h
        have := (Nat.div_eq_zero_iff (by omega : 0 < b)).mp h
        omega
      have hq : n / b < f := by
        have : n / b < n := Nat.div_lt_self (by omega) (by omega)
        omega
      simp only [Nat.toDigitsCore, numberCore, hlt, hdiv, if_false]
      rw [ih (n / b) _ hq, qDigit_eq_digitChar _ hmod]
      simp

theorem qNumber_eq_toDigits (b : Nat) (hb : 2 ≤ b) (hb16 : b ≤ 16) (n : Nat) :
    qNumber b n = Nat.toDigits b n := by
  have := numberCore_eq_toDigitsCore b hb hb16 (n + 1) n [] (Nat.lt_succ_self n)
  simp only [List.append_nil] at this
  exact this.symm

theorem qNumberInt_eq_repr (v : Int) : qNumberInt v = (Int.repr v).data := by
  cases v with
  | ofNat m =>
    have h : ¬ ((Int.ofNat m) < 0) := by simp
    simp only [qNumberInt, h, if_false, Int.repr, Nat.repr, Int.toNat_ofNat]
    exact qNumber_eq_toDigits 10 (by decide) (by decide) m
  | negSucc m =>
    have h : (Int.negSucc m) < 0 := Int.negSucc_lt_zero m
    simp only [qNumberInt, h, if_true, Int.repr, Nat.repr, Int.natAbs_negSucc,
      Nat.succ_eq_add_one]
    rw [qNumber_eq_toDigits 10 (by decide) (by decide)]
    rfl

theorem toByteOrderValue_mod (v : Nat) (order : ByteOrder) :
    toByteOrderValue (v % 65536) order = toByteOrderValue v order := by
  unfold toByteOrderValue
  split <;> omega

theorem toUInt16_toInt16_mod (v : Nat) : toUInt16 (toInt16 v) = v % 65536 := by
  unfold toUInt16 toInt16
  split <;> omega

theorem qPad_eq_leftpad (width : Nat) (fill : Char) (s : List Char) :
    qPad width fill s = List.leftpad width fill s := rfl

/-- The Integer mode string of a word kind in terms of the standard signed decimal
rendering. -/
theorem formatIntegerValue_repr (pointType : RegisterType) (w : Nat) (order : ByteOrder)
    (hk : pointType = RegisterType.HoldingRegisters ∨ pointType = RegisterType.InputRegisters) :
    (formatIntegerValue pointType (toInt16 w) order).1 =
      String.mk (['<'] ++
        List.leftpad 5 ' ' (Int.repr (toInt16 (toByteOrderValue w order))).data ++ ['>']) := by
  rcases hk with hk | hk <;> subst hk <;>
    simp only [formatIntegerValue, toUInt16_toInt16_mod, toByteOrderValue_mod,
      qPad_eq_leftpad, qNumberInt_eq_repr]

/-- C14: for a word of a word kind (taken modulo 2^16), the Integer mode string is `<`, then the
byte-order-reordered word read as a two's-complement signed 16-bit integer (the patterns
0x8000..0xFFFF are -32768..-1) in base 10, left-padded with blanks to width 5, then `>`; the
rows of a table in Integer mode are formatted this way from their snapshot words. -/
theorem C14_integer_mode (pointType : RegisterType) (w : Nat) (order : ByteOrder)
    (hk : pointType = RegisterType.HoldingRegisters ∨ pointType = RegisterType.InputRegisters) :
    (toInt16 (toByteOrderValue w order) =
      if toByteOrderValue w order < 32768 then ((toByteOrderValue w order : Nat) : Int)
      else ((toByteOrderValue w order : Nat) : Int) - 65536) ∧
    (-32768 ≤ toInt16 (toByteOrderValue w order) ∧
      toInt16 (toByteOrderValue w order) ≤ 32767) ∧
    (formatIntegerValue pointType (toInt16 w) order).1 =
      String.mk (['<'] ++
        List.leftpad 5 ' ' (Int.repr (toInt16 (toByteOrderValue w order))).data ++ ['>']) ∧
    5 ≤ (List.leftpad 5 ' ' (Int.repr (toInt16 (toByteOrderValue w order))).data).length ∧
    (∀ (fc : FloatCodec) (st : OutputWidget) (data : QModbusDataUnit) (i : Nat),
      st.displayDefinition.PointType = pointType →
      st.dataDisplayMode = DataDisplayMode.Integer →
      st.byteOrder = order →
      i < st.displayDefinition.Length →
      data.value i = w →
      ((OutputListModel.updateData fc st data).listModel.mapItems i).map ItemData.ValueStr =
        some (String.mk (['<'] ++
          List.leftpad 5 ' ' (Int.repr (toInt16 (toByteOrderValue w order))).data ++ ['>']))) := by
  have hlt := toByteOrderValue_lt w order
  refine ⟨?_, ⟨?_, ?_⟩, formatIntegerValue_repr pointType w order hk, ?_, ?_⟩
  · unfold toInt16
    rw [Nat.mod_eq_of_lt hlt]
  · unfold toInt16
    split <;> omega
  · unfold toInt16
    split <;> omega
  · simp only [List.leftpad, List.length_append, List.length_replicate]
    omega
  · intro fc st data i hpt hmode horder hi hval
    rw [updateData_valueStr fc st data i hi]
    simp only [updateItem, hmode, hpt, horder, hval]
    rw [formatIntegerValue_repr pointType w order hk]

theorem C14_integer_mode_witness :
    (toInt16 (toByteOrderValue 0xFFFE ByteOrder.LittleEndian) =
      if toByteOrderValue 0xFFFE ByteOrder.LittleEndian < 32768
      then ((toByteOrderValue 0xFFFE ByteOrder.LittleEndian : Nat) : Int)
      else ((toByteOrderValue 0xFFFE ByteOrder.LittleEndian : Nat) : Int) - 65536) ∧
    (-32768 ≤ toInt16 (toByteOrderValue 0xFFFE ByteOrder.LittleEndian) ∧
      toInt16 (toByteOrderValue 0xFFFE ByteOrder.LittleEndian) ≤ 32767) ∧
    (formatIntegerValue RegisterType.HoldingRegisters (toInt16 0xFFFE)
        ByteOrder.LittleEndian).1 =
      String.mk (['<'] ++
        List.leftpad 5 ' ' (Int.repr (toInt16 (toByteOrderValue 0xFFFE
          ByteOrder.LittleEndian))).data ++ ['>']) ∧
    5 ≤ (List.leftpad 5 ' ' (Int.repr (toInt16 (toByteOrderValue 0xFFFE
      ByteOrder.LittleEndian))).data).length ∧
    (∀ (fc : FloatCodec) (st : OutputWidget) (data : QModbusDataUnit) (i : Nat),
      st.displayDefinition.PointType = RegisterType.HoldingRegisters →
      st.dataDisplayMode = DataDisplayMode.Integer →
      st.byteOrder = ByteOrder.LittleEndian →
      i < st.displayDefinition.Length →
      data.value i = 0xFFFE →
      ((OutputListModel.updateData fc st data).listModel.mapItems i).map ItemData.ValueStr =
        some (String.mk (['<'] ++
          List.leftpad 5 ' ' (Int.repr (toInt16 (toByteOrderValue 0xFFFE
            ByteOrder.LittleEndian))).data ++ ['>']))) :=
  C14_integer_mode RegisterType.HoldingRegisters 0xFFFE ByteOrder.LittleEndian (Or.inl rfl)

/-- C15: for a word kind, the Binary mode string is `<`, the 16 base-2 digits of the
byte-order-reordered word (its standard rendering, zero padded), `>`, and the Decimal mode
string is `<`, the 5 base-10 digits of the reordered word, `>`; the strings have 18 and 7
characters for every input. -/
theorem C15_binary_decimal_fixed_width (pointType : RegisterType) (w : Nat) (order : ByteOrder)
    (hk : pointType = RegisterType.HoldingRegisters ∨ pointType = RegisterType.InputRegisters) :
    ((formatBinaryValue pointType w order).1 =
        String.mk (['<'] ++ List.leftpad 16 '0' (Nat.toDigits 2 (toByteOrderValue w order))
          ++ ['>']) ∧
      List.leftpad 16 '0' (Nat.toDigits 2 (toByteOrderValue w order))
        = fixedDigits 2 16 (toByteOrderValue w order) ∧
      (List.leftpad 16 '0' (Nat.toDigits 2 (toByteOrderValue w order))).length = 16 ∧
      (formatBinaryValue pointType w order).1.length = 18) ∧
    ((formatDecimalValue pointType w order).1 =
        String.mk (['<'] ++ List.leftpad 5 '0' (Nat.toDigits 10 (toByteOrderValue w order))
          ++ ['>']) ∧
      List.leftpad 5 '0' (Nat.toDigits 10 (toByteOrderValue w order))
        = fixedDigits 10 5 (toByteOrderValue w order) ∧
      (List.leftpad 5 '0' (Nat.toDigits 10 (toByteOrderValue w order))).length = 5 ∧
      (formatDecimalValue pointType w order).1.length = 7) := by
  have hlt := toByteOrderValue_lt w order
  have h2 : qPad 16 '0' (qNumber 2 (toByteOrderValue w order))
      = fixedDigits 2 16 (toByteOrderValue w order) :=
    qPad_qNumber 2 (by decide) 15 _ (by omega)
  have h10 : qPad 5 '0' (qNumber 10 (toByteOrderValue w order))
      = fixedDigits 10 5 (toByteOrderValue w order) :=
    qPad_qNumber 10 (by decide) 4 _ (by omega)
  have e2 := qNumber_eq_toDigits 2 (by decide) (by decide) (toByteOrderValue w order)
  have e10 := qNumber_eq_toDigits 10 (by decide) (by decide) (toByteOrderValue w order)
  rw [qPad_eq_leftpad, e2] at h2
  rw [qPad_eq_leftpad, e10] at h10
  have hb : (formatBinaryValue pointType w order).1 =
      String.mk (['<'] ++ List.leftpad 16 '0' (Nat.toDigits 2 (toByteOrderValue w order))
        ++ ['>']) := by
    rcases hk with hk | hk <;> subst hk <;>
      simp only [formatBinaryValue, qPad_eq_leftpad, e2]
  have hd : (formatDecimalValue pointType w order).1 =
      String.mk (['<'] ++ List.leftpad 5 '0' (Nat.toDigits 10 (toByteOrderValue w order))
        ++ ['>']) := by
    rcases hk with hk | hk <;> subst hk <;>
      simp only [formatDecimalValue, qPad_eq_leftpad, e10]
  refine ⟨⟨hb, h2, ?_, ?_⟩, ⟨hd, h10, ?_, ?_⟩⟩
  · rw [h2, fixedDigits_length]
  · rw [hb, h2]
    simp [String.length, fixedDigits_length]
  · rw [h10, fixedDigits_length]
  · rw [hd, h10]
    simp [String.length, fixedDigits_length]

theorem C15_binary_decimal_fixed_width_witness :
    ((formatBinaryValue RegisterType.InputRegisters 0x1234 ByteOrder.BigEndianByteSwapped).1 =
        String.mk (['<'] ++ List.leftpad 16 '0'
          (Nat.toDigits 2 (toByteOrderValue 0x1234 ByteOrder.BigEndianByteSwapped)) ++ ['>']) ∧
      List.leftpad 16 '0'
          (Nat.toDigits 2 (toByteOrderValue 0x1234 ByteOrder.BigEndianByteSwapped))
        = fixedDigits 2 16 (toByteOrderValue 0x1234 ByteOrder.BigEndianByteSwapped) ∧
      (List.leftpad 16 '0'
        (Nat.toDigits 2 (toByteOrderValue 0x1234 ByteOrder.BigEndianByteSwapped))).length
        = 16 ∧
      (formatBinaryValue RegisterType.InputRegisters 0x1234
        ByteOrder.BigEndianByteSwapped).1.length = 18) ∧
    ((formatDecimalValue RegisterType.InputRegisters 0x1234 ByteOrder.BigEndianByteSwapped).1 =
        String.mk (['<'] ++ List.leftpad 5 '0'
          (Nat.toDigits 10 (toByteOrderValue 0x1234 ByteOrder.BigEndianByteSwapped)) ++ ['>']) ∧
      List.leftpad 5 '0'
          (Nat.toDigits 10 (toByteOrderValue 0x1234 ByteOrder.BigEndianByteSwapped))
        = fixedDigits 10 5 (toByteOrderValue 0x1234 ByteOrder.BigEndianByteSwapped) ∧
      (List.leftpad 5 '0'
        (Nat.toDigits 10 (toByteOrderValue 0x1234 ByteOrder.BigEndianByteSwapped))).length
        = 5 ∧
      (formatDecimalValue RegisterType.InputRegisters 0x1234
        ByteOrder.BigEndianByteSwapped).1.length = 7) :=
  C15_binary_decimal_fixed_width RegisterType.InputRegisters 0x1234
    ByteOrder.BigEndianByteSwapped (Or.inr rfl)

/-! ## Text capture (C16) -/

theorem updateData_capture_fields (fc : FloatCodec) (st : OutputWidget)
    (data : QModbusDataUnit) :
    (OutputListModel.updateData fc st data).captureOpen = st.captureOpen ∧
    (OutputListModel.updateData fc st data).captureText = st.captureText ∧
    (OutputListModel.updateData fc st data).trafficText = st.trafficText := by
  simp [OutputListModel.updateData]

theorem qRemove_brackets (s : String) :
    qRemove '>' (qRemove '<' s) = withoutBrackets s := by
  simp only [qRemove, withoutBrackets, List.filter_filter]
  congr 1
  apply List.filter_congr
  intro c _
  exact Bool.and_comm _ _

/-- The capture token of row `i` of a recomputed table. -/
theorem dataCapture_recomputed (fc : FloatCodec) (st : OutputWidget) (data : QModbusDataUnit)
    (i : Nat) (hi : i < st.displayDefinition.Length) :
    OutputListModel.dataCapture (OutputListModel.updateData fc st data)
        (OutputListModel.index (OutputListModel.updateData fc st data) i)
      = withoutBrackets (rowDisplay (OutputListModel.updateData fc st data) i) := by
  have hdd := (updateData_settings fc st data).1
  have hrow := updateData_mapItems fc st data i
  rw [if_pos hi] at hrow
  have hidx : OutputListModel.index (OutputListModel.updateData fc st data) i = some i := by
    simp [OutputListModel.index, OutputListModel.rowCount, hdd, hi]
  simp only [hidx, OutputListModel.dataCapture, hrow, rowDisplay, Option.map_some',
    Option.getD_some, qRemove_brackets]

/-- C16: while the capture file is open, `OutputWidget::updateData` on a table of `N` rows
appends to it the timestamp, a blank, the decimal label of the base address, a blank, the `N`
row tokens joined by single blanks and a newline, where token `i` is the display string of row
`i` of the recomputed table with every `<` and `>` removed, in row order; when the capture file
is not open the captured text is unchanged. In both cases the table is the one
`OutputListModel::updateData` computes. -/
theorem C16_capture_line (fc : FloatCodec) (st : OutputWidget) (now : String)
    (data : QModbusDataUnit) :
    (st.captureOpen = true →
      (OutputWidget.updateData fc st now data).captureText =
        st.captureText ++ now ++ " " ++
          formatAddress st.displayDefinition.PointType st.displayDefinition.PointAddress false ++
          " " ++
          String.intercalate " "
            ((List.range st.displayDefinition.Length).map (fun i =>
              withoutBrackets (rowDisplay (OutputListModel.updateData fc st data) i))) ++
          "\n") ∧
    (st.captureOpen = false →
      (OutputWidget.updateData fc st now data).captureText = st.captureText) ∧
    (OutputWidget.updateData fc st now data).listModel
      = (OutputListModel.updateData fc st data).listModel ∧
    (∀ i, i < st.displayDefinition.Length →
      ((OutputListModel.updateData fc st data).listModel.mapItems i).isSome = true) := by
  obtain ⟨hopen, htext, _⟩ := updateData_capture_fields fc st data
  have hdd := (updateData_settings fc st data).1
  have htokens : (List.range (OutputListModel.rowCount (OutputListModel.updateData fc st data))).map
      (fun i => OutputListModel.dataCapture (OutputListModel.updateData fc st data)
        (OutputListModel.index (OutputListModel.updateData fc st data) i))
      = (List.range st.displayDefinition.Length).map (fun i =>
          withoutBrackets (rowDisplay (OutputListModel.updateData fc st data) i)) := by
    rw [OutputListModel.rowCount, hdd]
    apply List.map_congr_left
    intro i hi
    exact dataCapture_recomputed fc st data i (List.mem_range.mp hi)
  refine ⟨?_, ?_, ?_, ?_⟩
  · intro h
    simp only [OutputWidget.updateData, hopen, h, if_true, OutputWidget.captureString, htokens,
      htext, hdd]
  · intro h
    simp only [OutputWidget.updateData, hopen, h, htext]
    rfl
  · by_cases h : st.captureOpen = true
    · simp only [OutputWidget.updateData, hopen, h, if_true, OutputWidget.captureString]
    · have h' : st.captureOpen = false := by simpa using h
      simp only [OutputWidget.updateData, hopen, h']
      rfl
  · intro i hi
    rw [updateData_mapItems, if_pos hi]
    rfl

theorem C16_capture_line_witness :
    ({ sampleWidget with captureOpen := true, captureText := "head\n" } : OutputWidget).captureOpen
      = true ∧
    (OutputWidget.updateData sampleCodec
        { sampleWidget with captureOpen := true, captureText := "head\n" }
        "2024-01-01T00:00:00.000" sampleData).captureText =
      "head\n" ++ "2024-01-01T00:00:00.000" ++ " " ++
        formatAddress RegisterType.HoldingRegisters 100 false ++ " " ++
        String.intercalate " "
          ((List.range 4).map (fun i =>
            withoutBrackets (rowDisplay (OutputListModel.updateData sampleCodec
              { sampleWidget with captureOpen := true, captureText := "head\n" } sampleData)
              i))) ++
        "\n" ∧
    sampleWidget.captureOpen = false ∧
    (OutputWidget.updateData sampleCodec sampleWidget "2024-01-01T00:00:00.000"
      sampleData).captureText = sampleWidget.captureText :=
  ⟨rfl,
    (C16_capture_line sampleCodec
      { sampleWidget with captureOpen := true, captureText := "head\n" }
      "2024-01-01T00:00:00.000" sampleData).1 rfl,
    rfl,
    (C16_capture_line sampleCodec sampleWidget "2024-01-01T00:00:00.000" sampleData).2.1 rfl⟩

/-! ## The traffic pane (C17) -/

theorem trafficByteText_data (mode : DataDisplayMode) (c : Nat) :
    ∃ rest, (trafficByteText mode c).data = '[' :: rest := by
  cases mode <;> exact ⟨_, rfl⟩

theorem foldl_append_data_ne_nil (mode : DataDisplayMode) (rawData : List Nat) (init : String)
    (h : init.data ≠ []) :
    (rawData.foldl (fun text c => text ++ trafficByteText mode c) init).data ≠ [] := by
  induction rawData generalizing init with
  | nil => exact h
  | cons c rest ih =>
    rw [List.foldl_cons]
    apply ih
    simp [String.data_append, h]

/-- The text of a frame is never empty: it starts with the token of the server address. -/
theorem trafficFrameText_ne_empty (mode : DataDisplayMode) (server : Nat) (pdu : QModbusPdu) :
    trafficFrameText mode (trafficRawData server pdu) ≠ "" := by
  intro h
  have hne : (trafficFrameText mode (trafficRawData server pdu)).data ≠ [] := by
    unfold trafficFrameText trafficRawData
    rw [List.cons_append, List.foldl_cons]
    apply foldl_append_data_ne_nil
    obtain ⟨rest, hrest⟩ := trafficByteText_data mode (server % 256)
    simp [String.data_append, hrest]
  rw [h] at hne
  exact hne rfl

/-- C17: whatever the traffic pane holds, `updateTrafficWidget` builds a non-empty text for
the frame (one bracketed token per byte: server address, function code, data); when the frame
is a request and the pane holds more than 22000 characters the pane afterwards holds only the
text of the frame, and in every other case it holds its old content followed by the text of
the frame. -/
theorem C17_traffic_buffer (w : OutputWidget) (request : Bool) (server : Nat)
    (pdu : QModbusPdu) :
    trafficFrameText w.dataDisplayMode (trafficRawData server pdu) ≠ "" ∧
    trafficFrameText w.dataDisplayMode (trafficRawData server pdu) =
      String.join ((trafficRawData server pdu).map (trafficByteText w.dataDisplayMode)) ∧
    (OutputWidget.updateTrafficWidget w request server pdu).trafficText =
      (if request = true ∧ w.trafficText.length > 22000 then
        trafficFrameText w.dataDisplayMode (trafficRawData server pdu)
      else
        w.trafficText ++ trafficFrameText w.dataDisplayMode (trafficRawData server pdu)) := by
  have hne := trafficFrameText_ne_empty w.dataDisplayMode server pdu
  refine ⟨hne, ?_, ?_⟩
  · simp only [trafficFrameText, String.join, List.foldl_map]
  · simp only [OutputWidget.updateTrafficWidget, hne, if_false]
    by_cases hc : request = true ∧ w.trafficText.length > 22000
    · rw [if_pos hc]
      simp [hc.1, hc.2]
    · rw [if_neg hc]
      by_cases hr : request = true
      · have hl : ¬ w.trafficText.length > 22000 := fun hl => hc ⟨hr, hl⟩
        simp [hr, hl]
      · have hr' : request = false := by simpa using hr
        simp [hr']

/-! ## The status bar totals (C18) -/

theorem updateValidSlaveResponses_foldl_none (l : List QMdiSubWindow) :
    l.foldl
      (fun resps wnd =>
        match resps with
        | none => none
        | some total =>
          match castFormModSca wnd with
          | some frm => some ((total + frm.validSlaveResposes) % 2 ^ 32)
          | none => none) (none : Option Nat) = none := by
  induction l with
  | nil => rfl
  | cons wnd rest ih => simpa [List.foldl_cons] using ih

/-- As soon as one sub-window holds a widget that is not a `FormModSca`, the total of
`updateValidSlaveResponses` dereferences the null result of the cast. -/
theorem updateValidSlaveResponses_failed_cast (l1 l2 : List QMdiSubWindow)
    (wnd : QMdiSubWindow) (h : castFormModSca wnd = none) :
    MainStatusBar.updateValidSlaveResponses (l1 ++ wnd :: l2) = none := by
  unfold MainStatusBar.updateValidSlaveResponses
  rw [List.foldl_append, List.foldl_cons]
  cases hacc : l1.foldl
      (fun resps wnd =>
        match resps with
        | none => none
        | some total =>
          match castFormModSca wnd with
          | some frm => some ((total + frm.validSlaveResposes) % 2 ^ 32)
          | none => none) (some 0) with
  | none => exact updateValidSlaveResponses_foldl_none l2
  | some total =>
    simp only [h]
    exact updateValidSlaveResponses_foldl_none l2

/-- C18: on a list of sub-windows whose second window holds a widget that is not a
`FormModSca`, `updateValidSlaveResponses` dereferences the null pointer of the failed cast (its
test is `if(wnd)`), while `updateNumberOfPolls`, which tests `if(frm)`, skips that window and
totals 3 polls; on the first window alone both totals are computed. -/
theorem C18_valid_responses_uses_failed_cast :
    MainStatusBar.updateValidSlaveResponses sampleSubWindows = none ∧
    MainStatusBar.updateNumberOfPolls sampleSubWindows = 3 ∧
    MainStatusBar.updateValidSlaveResponses (sampleSubWindows.take 1) = some 2 ∧
    MainStatusBar.updateNumberOfPolls (sampleSubWindows.take 1) = 3 ∧
    MainStatusBar.updateValidSlaveResponses [{ widget := none }] = none ∧
    MainStatusBar.updateNumberOfPolls [{ widget := none }] = 0 := by
  decide

end OpenModScan
